import Mathlib

/-!
Verification development for the client-side entity possession and
interpolation engine of CNetworkPlayer (src/Client/Core/CNetworkPlayer.cpp).

The embedding is shallow: machine floats become exact rationals (so the
square of a Euclidean distance replaces the distance itself in every
comparison, which is equivalent because squaring is monotone on
nonnegative reals), unsigned tick counters become naturals, pointers
become Option-valued identifiers, and a null-pointer dereference is
modelled by an operation returning none.  External engine calls
(Scripting natives, CIVTask processing, the streamer) are modelled by
their effect on an explicit simulation-state record; parts of the
repository that are only declared in headers missing from the source
drop (CNetworkVehicle accessors, IsInVehicle, HasVehicleEnterExit) are
modelled from the specification and marked as such.
-/

namespace IVMP

/-- Three-dimensional vector over the rationals, standing in for CVector3. -/
structure Vec3 where
  x : ℚ
  y : ℚ
  z : ℚ
deriving DecidableEq, Repr

def Vec3.zero : Vec3 := ⟨0, 0, 0⟩

def Vec3.add (a b : Vec3) : Vec3 := ⟨a.x + b.x, a.y + b.y, a.z + b.z⟩

def Vec3.sub (a b : Vec3) : Vec3 := ⟨a.x - b.x, a.y - b.y, a.z - b.z⟩

def Vec3.smul (c : ℚ) (a : Vec3) : Vec3 := ⟨c * a.x, c * a.y, c * a.z⟩

instance : Add Vec3 := ⟨Vec3.add⟩

instance : Sub Vec3 := ⟨Vec3.sub⟩

instance : SMul ℚ Vec3 := ⟨Vec3.smul⟩

/-- Squared Euclidean norm; comparisons against a squared bound replace the
source comparisons of CVector3 Length against the plain bound. -/
def normSq (a : Vec3) : ℚ := a.x * a.x + a.y * a.y + a.z * a.z

/-- Squared distance, standing in for Math GetDistanceBetweenPoints3D. -/
def distSq (a b : Vec3) : ℚ := normSq (a - b)

/-- Math Unlerp: fraction of the way that cur lies from start to finish
(times are cast from naturals to rationals). -/
def unlerp (start cur finish : Nat) : ℚ := ((cur : ℚ) - start) / ((finish : ℚ) - start)

/-- Math Clamp with argument order (low, value, high). -/
def clamp (lo v hi : ℚ) : ℚ := min (max lo v) hi

/-- Math Lerp between two vectors. -/
def lerp (a : Vec3) (t : ℚ) (b : Vec3) : Vec3 := a + t • (b - a)

/-- Per-tick input snapshot (the two CControlState fields the possession
state machine inspects: IsUsingEnterExitVehicle and IsUsingHorn). -/
structure ControlState where
  enterExitVehicle : Bool
  horn : Bool
deriving DecidableEq, Repr

/-- Game task kinds relevant to the possession state machine. -/
inductive TaskType where
  | getInVehicle
  | exitVehicle
  | complexDie
deriving DecidableEq, Repr

/-- Reliable and unreliable RPC intents emitted by the state machine
(RPC_VehicleEnterExit sub-codes and RPC_ScriptingVehicleDeath). -/
inductive Msg where
  | entryRequest (pid vid seat : Nat)
  | entryComplete (pid vid seat : Nat)
  | entryCancelled (pid vid seat : Nat)
  | exitRequest (pid vid : Nat)
  | exitComplete (pid vid : Nat)
  | exitForceful (pid vid : Nat)
  | vehicleDeath (vid : Nat)
deriving DecidableEq, Repr

/-- Modelled from the spec: the CNetworkVehicle collaborator (its source is
not in the drop, only its call sites are).  Occupants are stored per seat,
driver seat 0 and passengers 1..N; GetDriver/SetDriver act on a separate
driver reference exactly as the call sites use them. -/
structure Vehicle where
  vehId : Nat
  pos : Vec3
  spawned : Bool
  streamedIn : Bool
  doorLockState : Nat
  maxPassengers : Nat
  occupants : List (Option Nat)
  isNetworkVehicle : Bool
  driver : Option Nat
  damageable : Bool
  health : Int
  petrolTankHealth : ℚ
  carDead : Bool
deriving DecidableEq, Repr

/-- Default vehicle record, used only to give dangling identifier reads a
defined value (call sites always pass live vehicles). -/
def defaultVehicle : Vehicle :=
  { vehId := 0, pos := Vec3.zero, spawned := false, streamedIn := false,
    doorLockState := 0, maxPassengers := 0, occupants := [],
    isNetworkVehicle := false, driver := none, damageable := false,
    health := 0, petrolTankHealth := 0, carDead := false }

/-- Modelled from the spec: SetOccupant writes one slot of the occupant
table (out-of-range writes leave the table unchanged). -/
def setOccupant (seat : Nat) (occ : Option Nat) (v : Vehicle) : Vehicle :=
  { v with occupants := v.occupants.set seat occ }

/-- Modelled from the spec: GetPassenger i reads the occupant of passenger
seat i, which is occupant-table slot i + 1 (driver occupies slot 0). -/
def getPassenger (v : Vehicle) (i : Nat) : Option Nat :=
  v.occupants.getD (i + 1) none

/-- External simulation state attached to the player ped (what the
Scripting natives and the ped task manager read and write). -/
structure PedSim where
  charHealth : Nat
  charArmour : Int
  inVehicle : Bool
  primaryTask : Option TaskType
  eventTask : Option TaskType
deriving DecidableEq, Repr

/-- The m_vehicleEnterExit record of CNetworkPlayer. -/
structure VehicleEnterExit where
  entering : Bool
  exiting : Bool
  requesting : Bool
  pendVehicle : Option Nat
  pendSeat : Nat
deriving DecidableEq, Repr

/-- CNetworkPlayer state (the fields the claims touch). -/
structure Player where
  playerId : Nat
  isLocalPlayer : Bool
  spawned : Bool
  pos : Vec3
  pVehicle : Option Nat
  seatId : Nat
  vee : VehicleEnterExit
  healthLocked : Bool
  lockedHealth : Nat
  armourLocked : Bool
  lockedArmour : Int
  interpTarget : Vec3
  interpError : Vec3
  interpStartTime : Nat
  interpFinishTime : Nat
  interpLastAlpha : ℚ
  currentCS : ControlState
  previousCS : ControlState
  vehicleDeathCheck : Bool
  sim : PedSim
deriving DecidableEq, Repr

/-- Global state: the subject player, the vehicle registry (the streamer
list is its streamed-in sublist), the shared clock, and the two ambient
input globals read by CheckVehicleEntryExitKey. -/
structure GState where
  p : Player
  vehicles : List Vehicle
  time : Nat
  inputEnabled : Bool
  controlsDisabled : Bool
deriving DecidableEq, Repr

/-- Look a vehicle identifier up in the registry. -/
def findVeh (vid : Nat) (s : GState) : Option Vehicle :=
  s.vehicles.find? (fun v => v.vehId == vid)

/-- Dereference a vehicle identifier (total, with the default record for a
dangling identifier). -/
def vehD (vid : Nat) (s : GState) : Vehicle :=
  (findVeh vid s).getD defaultVehicle

/-- Apply an update to the vehicle with the given identifier. -/
def updateVeh (vid : Nat) (f : Vehicle → Vehicle) (s : GState) : GState :=
  { s with vehicles := s.vehicles.map (fun v => if v.vehId = vid then f v else v) }

/-- Modelled from the spec: IsInVehicle (declared in the missing header) is
the test of the current vehicle occupancy reference. -/
def isInVehicle (p : Player) : Bool := p.pVehicle.isSome

/-- Modelled from the spec: HasVehicleEnterExit (declared in the missing
header) is the mid-transition test, entering or exiting. -/
def hasVehicleEnterExit (p : Player) : Bool := p.vee.entering || p.vee.exiting

/-- CNetworkPlayer InternalIsInVehicle: spawned and the game ped reports
being seated in a vehicle. -/
def internalIsInVehicle (s : GState) : Bool := s.p.spawned && s.p.sim.inVehicle

/-- CNetworkPlayer GetPosition: vehicle position while occupying a vehicle,
ped position otherwise, zero when despawned. -/
def getPosition (s : GState) : Vec3 :=
  if s.p.spawned then
    match s.p.pVehicle with
    | some vid => (vehD vid s).pos
    | none => s.p.pos
  else Vec3.zero

/-- CNetworkPlayer RemoveTargetPosition. -/
def removeTargetPosition (s : GState) : GState :=
  { s with p.interpFinishTime := 0 }

/-- CNetworkPlayer ResetInterpolation. -/
def resetInterpolation (s : GState) : GState := removeTargetPosition s

/-- CNetworkPlayer SetPosition: the write goes through only when spawned,
not internally in a vehicle and not mid enter/exit (the world removal and
interior forcing around the matrix write are engine effects without state
here). -/
def setPosition (v : Vec3) (resetInterp : Bool) (s : GState) : GState :=
  let s1 :=
    if s.p.spawned && !internalIsInVehicle s && !hasVehicleEnterExit s.p then
      { s with p.pos := v }
    else s
  if resetInterp then removeTargetPosition s1 else s1

/-- CNetworkPlayer HasTargetPosition: a finish time of 0 means no
interpolation is active. -/
def hasTargetPosition (p : Player) : Bool := p.interpFinishTime != 0

/-- CNetworkPlayer UpdateTargetPosition: one interpolation tick (alpha
slice of the stored error on top of the current position, deadline cleared
at alpha 1, snap to the target past the 5-unit radius, i.e. squared
distance past 25). -/
def updateTargetPosition (s : GState) : GState :=
  if hasTargetPosition s.p then
    let cur := getPosition s
    let fAlpha := clamp 0 (unlerp s.p.interpStartTime s.time s.p.interpFinishTime) 1
    let fCurrentAlpha := fAlpha - s.p.interpLastAlpha
    let comp := lerp Vec3.zero fCurrentAlpha s.p.interpError
    let s1 := { s with p.interpLastAlpha := fAlpha }
    let s2 := if fAlpha = 1 then { s1 with p.interpFinishTime := 0 } else s1
    let newPos := cur + comp
    let out :=
      if 25 < distSq cur s.p.interpTarget then
        ({ s2 with p.interpFinishTime := 0 }, s.p.interpTarget)
      else (s2, newPos)
    setPosition out.2 false out.1
  else s

/-- CNetworkPlayer Interpolate (the guard in the source is constant true). -/
def interpolate (s : GState) : GState := updateTargetPosition s

/-- CNetworkPlayer SetTargetPosition. -/
def setTargetPosition (v : Vec3) (delay : Nat) (s : GState) : GState :=
  if s.p.spawned then
    let s1 := updateTargetPosition s
    let cur := getPosition s1
    { s1 with
        p.interpTarget := v,
        p.interpError := v - cur,
        p.interpStartTime := s1.time,
        p.interpFinishTime := s1.time + delay,
        p.interpLastAlpha := 0 }
  else s

/-- One interpolation tick of the simulation loop at clock value t (Pulse
advances the shared clock and runs the interpolator for a remote player
that is not seated in a vehicle). -/
def tickAt (t : Nat) (s : GState) : GState :=
  updateTargetPosition { s with time := t }

/-- Repeated interpolation ticks at the given clock values. -/
def runTicks (ts : List Nat) (s : GState) : GState :=
  ts.foldl (fun st t => tickAt t st) s

/-- CNetworkPlayer SetHealth: write through to the simulation while
spawned, and unconditionally clear the health lock. -/
def setHealth (h : Nat) (s : GState) : GState :=
  let s1 := if s.p.spawned then { s with p.sim.charHealth := h } else s
  { s1 with p.healthLocked := false }

/-- CNetworkPlayer LockHealth. -/
def lockHealth (h : Nat) (s : GState) : GState :=
  let s1 := setHealth h s
  { s1 with p.lockedHealth := h, p.healthLocked := true }

/-- CNetworkPlayer GetHealth. -/
def getHealth (s : GState) : Nat :=
  if s.p.healthLocked then s.p.lockedHealth
  else if s.p.spawned then s.p.sim.charHealth
  else 0

/-- CNetworkPlayer GetArmour. -/
def getArmour (s : GState) : Int :=
  if s.p.armourLocked then s.p.lockedArmour
  else if s.p.spawned then s.p.sim.charArmour
  else 0

/-- CNetworkPlayer SetArmour: the source adds the difference to the current
armour through AddArmourToChar, then unconditionally clears the armour
lock. -/
def setArmour (a : Int) (s : GState) : GState :=
  let s1 :=
    if s.p.spawned then
      { s with p.sim.charArmour := s.p.sim.charArmour + (a - getArmour s) }
    else s
  { s1 with p.armourLocked := false }

/-- CNetworkPlayer LockArmour. -/
def lockArmour (a : Int) (s : GState) : GState :=
  let s1 := setArmour a s
  { s1 with p.lockedArmour := a, p.armourLocked := true }

/-- CNetworkPlayer IsGettingInToAVehicle: the primary-priority ped task is
the get-in-vehicle task. -/
def isGettingInToAVehicle (s : GState) : Bool :=
  s.p.spawned && decide (s.p.sim.primaryTask = some TaskType.getInVehicle)

/-- CNetworkPlayer IsGettingOutOfAVehicle. -/
def isGettingOutOfAVehicle (s : GState) : Bool :=
  s.p.spawned && decide (s.p.sim.primaryTask = some TaskType.exitVehicle)

/-- CNetworkPlayer ClearVehicleEntryTask (the Bool result is ignored by
every caller, so only the state effect is kept). -/
def clearVehicleEntryTask (s : GState) : GState :=
  if s.p.spawned && decide (s.p.sim.primaryTask = some TaskType.getInVehicle) then
    { s with p.sim.primaryTask := none }
  else s

/-- CNetworkPlayer ClearVehicleExitTask. -/
def clearVehicleExitTask (s : GState) : GState :=
  if s.p.spawned && decide (s.p.sim.primaryTask = some TaskType.exitVehicle) then
    { s with p.sim.primaryTask := none }
  else s

/-- CNetworkPlayer ResetVehicleEnterExit. -/
def resetVehicleEnterExit (s : GState) : GState :=
  let s1 := { s with p.vee := ⟨false, false, false, none, 0⟩ }
  clearVehicleExitTask (clearVehicleEntryTask s1)

/-- Modelled from the spec: the streamer ForceStreamIn call streams the
vehicle into the local view. -/
def forceStreamIn (vid : Nat) (s : GState) : GState :=
  updateVeh vid (fun v => { v with streamedIn := true }) s

/-- CNetworkPlayer IsDying: the event-response ped task is the complex die
task. -/
def isDying (s : GState) : Bool :=
  s.p.spawned && decide (s.p.sim.eventTask = some TaskType.complexDie)

/-- CNetworkPlayer IsDead falls back to IsDying (in-source HACK note). -/
def isDead (s : GState) : Bool :=
  if s.p.spawned then isDying s else false

/-- CNetworkPlayer EnterVehicle: start the get-in-vehicle task and mark the
pending entry (the seat-dependent door and flag arguments of the game task
carry no state here). -/
def enterVehicle (vehArg : Option Nat) (seat : Nat) (s : GState) : GState :=
  if s.p.spawned then
    match vehArg with
    | none => s
    | some vid =>
      let s1 :=
        if !(vehD vid s).streamedIn && s.p.isLocalPlayer then forceStreamIn vid s else s
      if isInVehicle s1.p then s1
      else if (vehD vid s1).streamedIn && (vehD vid s1).doorLockState == 0 then
        let s2 := { s1 with p.sim.primaryTask := some TaskType.getInVehicle }
        let s3 :=
          { s2 with
              p.vee.entering := true,
              p.vee.pendVehicle := some vid,
              p.vee.pendSeat := seat }
        resetInterpolation s3
      else s1
  else s

/-- CNetworkPlayer ExitVehicle.  With a current vehicle: start the exit
task, flag exiting, run the vehicle-death probe, reset the driver and the
interpolation (the exit-mode selection from the vehicle move speed and
model affects only the game-task arguments).  Without a current vehicle the
source clears a pending entry task and then dereferences the null vehicle
reference in the health / petrol-tank check: that crash is the none
result. -/
def exitVehicle (exitModeNormal : Bool) (s : GState) : Option (GState × List Msg) :=
  if s.p.spawned then
    match s.p.pVehicle with
    | some vid =>
      let s1 := { s with p.sim.primaryTask := some TaskType.exitVehicle }
      let s2 := { s1 with p.vee.exiting := true }
      let v := vehD vid s2
      let out :=
        if v.health < 0 || decide (v.petrolTankHealth < 0) then
          let s3 := { s2 with p.vehicleDeathCheck := true }
          if v.carDead then
            ({ s3 with p.vehicleDeathCheck := false }, [Msg.vehicleDeath vid])
          else (s3, [])
        else (s2, [])
      let s4 := updateVeh vid (fun w => { w with driver := none }) out.1
      some (resetInterpolation s4, out.2)
    | none =>
      let _cleared := if hasVehicleEnterExit s.p then clearVehicleEntryTask s else s
      none
  else some (s, [])

/-- CNetworkPlayer InternalPutInVehicle: the set-ped-in-vehicle task is
processed immediately, seating the ped (seat-to-door mapping 0 to 0, 1 to
2, 2 to 1, 3 to 3 parametrizes the game task only). -/
def internalPutInVehicle (vid seat : Nat) (s : GState) : GState :=
  if s.p.spawned && !internalIsInVehicle s then
    { s with p.sim.inVehicle := true }
  else s

/-- CNetworkPlayer InternalRemoveFromVehicle: mark the vehicle
undamageable, then the set-ped-out task unseats the ped. -/
def internalRemoveFromVehicle (s : GState) : GState :=
  if s.p.spawned then
    match s.p.pVehicle with
    | some vid =>
      let s1 := updateVeh vid (fun v => { v with damageable := false }) s
      { s1 with p.sim.inVehicle := false }
    | none => s
  else s

/-- CNetworkPlayer RemoveFromVehicle (the occupant slot cleared is indexed
by the enter/exit seat field, exactly as in the source). -/
def removeFromVehicle (s : GState) : GState :=
  if s.p.spawned then
    match s.p.pVehicle with
    | some vid =>
      let s1 := internalRemoveFromVehicle s
      let s2 := updateVeh vid (setOccupant s1.p.vee.pendSeat none) s1
      let s3 := { s2 with p.pVehicle := none, p.seatId := 0 }
      resetVehicleEnterExit s3
    | none => s
  else s

/-- CNetworkPlayer PutInVehicle. -/
def putInVehicle (vehArg : Option Nat) (seat : Nat) (s : GState) : GState × List Msg :=
  if s.p.spawned then
    match vehArg with
    | none => (s, [])
    | some vid =>
      if !(vehD vid s).streamedIn && !s.p.isLocalPlayer then (s, [])
      else
        let s1 :=
          if !(vehD vid s).streamedIn && s.p.isLocalPlayer then forceStreamIn vid s else s
        let s2 := if isInVehicle s1.p then removeFromVehicle s1 else s1
        let s3 := if (vehD vid s2).streamedIn then internalPutInVehicle vid seat s2 else s2
        let s4 := resetVehicleEnterExit s3
        let s5 := { s4 with p.pVehicle := some vid }
        let s6 := updateVeh vid (fun v => { v with damageable := true }) s5
        let s7 := { s6 with p.seatId := seat }
        let s8 := updateVeh vid (setOccupant seat (some s.p.playerId)) s7
        if (vehD vid s8).isNetworkVehicle then
          (s8, [Msg.entryComplete s.p.playerId vid seat])
        else (s8, [])
  else (s, [])

/-- Scan of the streamed-in vehicle list in GetClosestVehicle: keep the
strictly closest vehicle seen so far, starting from the squared 6.0-unit
cap. -/
def scanVehicles (pos : Vec3) : List Vehicle → ℚ → Option Vehicle → ℚ × Option Vehicle
  | [], cur, best => (cur, best)
  | v :: rest, cur, best =>
    let d := distSq pos v.pos
    if d < cur then scanVehicles pos rest d (some v)
    else scanVehicles pos rest cur best

/-- Passenger-seat scan of GetClosestVehicle: first free passenger seat in
increasing index order, as seat number i + 1, or 0 when every passenger
seat is taken. -/
def seatScan (v : Vehicle) : Nat → Nat → Nat
  | _, 0 => 0
  | i, Nat.succ fuel => if getPassenger v i = none then i + 1 else seatScan v (i + 1) fuel

/-- First free passenger seat of a vehicle (0 when none). -/
def firstFreePassengerSeat (v : Vehicle) : Nat := seatScan v 0 v.maxPassengers

/-- CNetworkPlayer GetClosestVehicle. -/
def getClosestVehicle (passenger : Bool) (s : GState) : Option (Vehicle × Nat) :=
  if s.p.spawned then
    let playerPos := getPosition s
    let streamed := s.vehicles.filter (fun v => v.streamedIn)
    match (scanVehicles playerPos streamed 36 none).2 with
    | none => none
    | some best =>
      if passenger then
        let seat := firstFreePassengerSeat best
        if seat = 0 then none else some (best, seat)
      else some (best, 0)
  else none

/-- CNetworkPlayer CheckVehicleEntryExitKey.  Diagnostic prints carry no
state; the none result propagates the ExitVehicle crash. -/
def checkVehicleEntryExitKey (s : GState) : Option (GState × List Msg) :=
  if s.p.spawned && s.inputEnabled && !s.controlsDisabled then
    if s.p.currentCS.enterExitVehicle && !s.p.previousCS.enterExitVehicle then
      if !s.p.vee.requesting && isInVehicle s.p && !s.p.vee.exiting then
        match s.p.pVehicle with
        | some vid =>
          if (vehD vid s).isNetworkVehicle then
            some ({ s with p.vee.requesting := true }, [Msg.exitRequest s.p.playerId vid])
          else
            exitVehicle true s
        | none => some (s, [])
      else some (s, [])
    else
      let released := s.p.previousCS.enterExitVehicle && !s.p.currentCS.enterExitVehicle
      let hornReleased := s.p.previousCS.horn && !s.p.currentCS.horn
      if released || hornReleased then
        if !s.p.vee.requesting then
          if !isInVehicle s.p && !s.p.vee.entering then
            match getClosestVehicle hornReleased s with
            | some (v, seat) =>
              if v.spawned then
                if 0 < v.doorLockState then
                  some ({ s with p.vee.requesting := false, p.vee.entering := false }, [])
                else if v.isNetworkVehicle then
                  some ({ s with p.vee.requesting := true },
                        [Msg.entryRequest s.p.playerId v.vehId seat])
                else
                  some (enterVehicle (some v.vehId) seat s, [])
              else some (s, [])
            | none => some (s, [])
          else some (s, [])
        else some (s, [])
      else some (s, [])
  else some (s, [])

/-- Entry-completion stage of ProcessVehicleEntryExit, reached while the
ped is internally seated; dereferences the pending vehicle. -/
def pveInVehicleStage (s : GState) : Option (GState × List Msg) :=
  if s.p.vee.entering then
    if !isGettingInToAVehicle s then
      match s.p.vee.pendVehicle with
      | some vid =>
        let s1 := { s with p.vee.entering := false, p.pVehicle := some vid }
        let s2 := updateVeh vid (fun v => { v with damageable := true }) s1
        let s3 := { s2 with p.seatId := s.p.vee.pendSeat }
        let s4 := updateVeh vid (setOccupant s.p.vee.pendSeat (some s.p.playerId)) s3
        let s5 := { s4 with p.vee.pendVehicle := none }
        if (vehD vid s5).isNetworkVehicle then
          some (s5, [Msg.entryComplete s.p.playerId vid s.p.vee.pendSeat])
        else some (s5, [])
      | none => none
    else some (s, [])
  else some (s, [])

/-- Entry-handling stage of ProcessVehicleEntryExit when the ped is not
internally seated: cancel for the local player (dereferencing the pending
vehicle), restart for a remote player, or clear a stray entry task. -/
def pveEnteringStage (s : GState) : Option (GState × List Msg) :=
  if s.p.vee.entering then
    if !isGettingInToAVehicle s then
      if s.p.isLocalPlayer then
        match s.p.vee.pendVehicle with
        | some vid =>
          if (vehD vid s).isNetworkVehicle then
            let s1 := updateVeh vid (fun v => { v with damageable := false }) s
            let s2 := { s1 with p.vee.entering := false, p.vee.pendVehicle := none }
            some (s2, [Msg.entryCancelled s.p.playerId vid s.p.seatId])
          else
            some ({ s with p.vee.entering := false, p.vee.pendVehicle := none }, [])
        | none => none
      else
        some (enterVehicle s.p.vee.pendVehicle s.p.vee.pendSeat s, [])
    else some (s, [])
  else
    if isGettingInToAVehicle s then some (clearVehicleEntryTask s, [])
    else some (s, [])

/-- Forceful-exit detection of ProcessVehicleEntryExit: a current vehicle
reference without the exiting flag means the ped was expelled by the
simulation, so the slot is released and an ExitForceful notice emitted for
a network vehicle. -/
def pveForcefulStage (s1 : GState) : GState × List Msg :=
  match s1.p.pVehicle with
  | some vid =>
    let ms := if (vehD vid s1).isNetworkVehicle then [Msg.exitForceful s1.p.playerId vid] else []
    let s2 := updateVeh vid (setOccupant s1.p.seatId none) s1
    let s3 := updateVeh vid (fun v => { v with damageable := false }) s2
    ({ s3 with p.pVehicle := none, p.seatId := 0 }, ms)
  | none => (s1, [])

/-- Exit-handling stage of ProcessVehicleEntryExit when the ped is not
internally seated: exit completion (dereferencing the current vehicle), or
stray-exit-task clearing followed by forceful-exit detection. -/
def pveExitingStage (s : GState) : Option (GState × List Msg) :=
  if s.p.vee.exiting then
    if !isGettingOutOfAVehicle s then
      match s.p.pVehicle with
      | some vid =>
        let ms := if (vehD vid s).isNetworkVehicle then [Msg.exitComplete s.p.playerId vid] else []
        let s1 := { s with p.vee.exiting := false }
        let s2 := updateVeh vid (setOccupant s1.p.seatId none) s1
        let s3 := updateVeh vid (fun v => { v with damageable := false }) s2
        some ({ s3 with p.pVehicle := none, p.seatId := 0 }, ms)
      | none => none
    else some (s, [])
  else
    some (pveForcefulStage (if isGettingOutOfAVehicle s then clearVehicleExitTask s else s))

/-- CNetworkPlayer ProcessVehicleEntryExit. -/
def processVehicleEntryExit (s : GState) : Option (GState × List Msg) :=
  if s.p.spawned then
    if internalIsInVehicle s then pveInVehicleStage s
    else
      match pveEnteringStage s with
      | none => none
      | some (s1, ms1) =>
        match pveExitingStage s1 with
        | none => none
        | some (s2, ms2) => some (s2, ms1 ++ ms2)
  else some (s, [])

/-- Vehicle-death polling of Pulse for the local player: while armed, a
driverless current vehicle flagged dead broadcasts a VehicleDied notice
once and disarms; a driver or a lost reference disarms silently. -/
def vehicleDeathCheckStage (s5 : GState) : GState × List Msg :=
  if s5.p.vehicleDeathCheck then
    match s5.p.pVehicle with
    | some vid =>
      let v := vehD vid s5
      if v.driver = none then
        if v.carDead then
          ({ s5 with p.vehicleDeathCheck := false }, [Msg.vehicleDeath vid])
        else (s5, [])
      else ({ s5 with p.vehicleDeathCheck := false }, [])
    | none => ({ s5 with p.vehicleDeathCheck := false }, [])
  else (s5, [])

/-- CNetworkPlayer Pulse: one simulation tick (control snapshot shift for
the local player from the pad argument, attribute-lock maintenance,
possession processing, then key handling plus vehicle-death polling for the
local player or interpolation for an unseated remote player). -/
def pulse (pad : ControlState) (s : GState) : Option (GState × List Msg) :=
  if s.p.spawned then
    let s1 :=
      if s.p.isLocalPlayer then
        { s with p.previousCS := s.p.currentCS, p.currentCS := pad }
      else s
    let s2 := if s1.p.healthLocked then setHealth s1.p.lockedHealth s1 else s1
    let s3 := if s2.p.armourLocked then setArmour s2.p.lockedArmour s2 else s2
    match processVehicleEntryExit s3 with
    | none => none
    | some (s4, ms1) =>
      if s4.p.isLocalPlayer then
        match checkVehicleEntryExitKey s4 with
        | none => none
        | some (s5, ms2) =>
          let out := vehicleDeathCheckStage s5
          some (out.1, ms1 ++ ms2 ++ out.2)
      else
        let s5 := if !isInVehicle s4.p then interpolate s4 else s4
        some (s5, ms1)
  else some (s, [])

/-- CNetworkPlayer SetControlState (the pad write-through for the local
entity is an external effect; both snapshots shift unconditionally). -/
def setControlState (cs : ControlState) (s : GState) : GState :=
  { s with p.previousCS := s.p.currentCS, p.currentCS := cs }

/-- CNetworkPlayer Kill (the instant-death task of the source is commented
out; the non-instant path creates the complex die task, then both paths
zero health and armour and reset controls, enter/exit state and
interpolation). -/
def kill (instantly : Bool) (s : GState) : GState :=
  if s.p.spawned && !isDead s then
    if !instantly && isDying s then s
    else
      let s1 := if instantly then s else { s with p.sim.eventTask := some TaskType.complexDie }
      let s2 := setHealth 0 s1
      let s3 := setArmour 0 s2
      let s4 := setControlState ⟨false, false⟩ s3
      let s5 := resetVehicleEnterExit s4
      resetInterpolation s5
  else s

/-- Game entity identities as compared by GetKillInfo: a ped entity, a
CNetworkVehicle wrapper pointer cast to an entity, or the game vehicle
entity (the source compares the last-damage entity against all three). -/
inductive GameEntity where
  | pedE (handle : Nat)
  | wrapperE (handle : Nat)
  | gameVehE (handle : Nat)
deriving DecidableEq, Repr

/-- One slot of the global player registry as read by GetKillInfo. -/
structure RegPlayer where
  present : Bool
  spawned : Bool
  pedHandle : Nat
  currentWeapon : Nat
  inVehicle : Bool
  isPassenger : Bool
  vehWrapperHandle : Nat
deriving DecidableEq, Repr

/-- One streamed-in vehicle as read by the final loop of GetKillInfo. -/
structure KVehicle where
  vehId : Nat
  gameEntityHandle : Nat
deriving DecidableEq, Repr

/-- Player loop of GetKillInfo: first connected spawned player whose ped is
the last-damage entity, else whose occupied vehicle wrapper is (driver
only); the Bool records the vehicle branch. -/
def killScanPlayers (dmg : Option GameEntity) : Nat → List RegPlayer → Option (Nat × Nat × Bool)
  | _, [] => none
  | i, q :: rest =>
    if q.present && q.spawned then
      if dmg = some (GameEntity.pedE q.pedHandle) then some (i, q.currentWeapon, false)
      else if q.inVehicle && !q.isPassenger &&
              decide (dmg = some (GameEntity.wrapperE q.vehWrapperHandle)) then
        some (i, q.currentWeapon, true)
      else killScanPlayers dmg (i + 1) rest
    else killScanPlayers dmg (i + 1) rest

/-- Vehicle loop of GetKillInfo over the streamed-in vehicles. -/
def killScanVehicles (dmg : Option GameEntity) : List KVehicle → Option Nat
  | [] => none
  | v :: rest =>
    if dmg = some (GameEntity.gameVehE v.gameEntityHandle) then some v.vehId
    else killScanVehicles dmg rest

/-- CNetworkPlayer GetKillInfo over the player registry and streamed
vehicle list.  In the killer-via-vehicle branch the source stores the
player loop index into the vehicle-id out parameter. -/
def getKillInfo (victimSpawned : Bool) (dmg : Option GameEntity)
    (players : List RegPlayer) (vehicles : List KVehicle) :
    Option (Option Nat × Option Nat × Option Nat) :=
  if victimSpawned then
    match killScanPlayers dmg 0 players with
    | some (i, w, viaVehicle) =>
      if viaVehicle then some (some i, some i, some w)
      else some (some i, none, some w)
    | none =>
      match killScanVehicles dmg vehicles with
      | some vid => some (none, some vid, none)
      | none => some (none, none, none)
  else none

/-- Idle pad snapshot. -/
def padIdle : ControlState := ⟨false, false⟩

/-- Baseline simulation state for the concrete scenarios. -/
def simBase : PedSim :=
  { charHealth := 100, charArmour := 0, inVehicle := false,
    primaryTask := none, eventTask := none }

/-- Baseline spawned remote player at the origin for the concrete
scenarios. -/
def basePlayer : Player :=
  { playerId := 0, isLocalPlayer := false, spawned := true, pos := Vec3.zero,
    pVehicle := none, seatId := 0, vee := ⟨false, false, false, none, 0⟩,
    healthLocked := false, lockedHealth := 0, armourLocked := false,
    lockedArmour := 0, interpTarget := Vec3.zero, interpError := Vec3.zero,
    interpStartTime := 0, interpFinishTime := 0, interpLastAlpha := 0,
    currentCS := padIdle, previousCS := padIdle, vehicleDeathCheck := false,
    sim := simBase }

/-- Baseline empty world around the baseline player. -/
def baseState : GState :=
  { p := basePlayer, vehicles := [], time := 0,
    inputEnabled := true, controlsDisabled := false }

/-- Baseline streamed-in unlocked vehicle. -/
def baseVeh : Vehicle :=
  { vehId := 0, pos := Vec3.zero, spawned := true, streamedIn := true,
    doorLockState := 0, maxPassengers := 0, occupants := [],
    isNetworkVehicle := false, driver := none, damageable := false,
    health := 1000, petrolTankHealth := 1000, carDead := false }

/-- Vehicle 3.0 units from the origin. -/
def c5veh30 : Vehicle := { baseVeh with vehId := 1, pos := ⟨3, 0, 0⟩ }

/-- Vehicle 5.5 units from the origin. -/
def c5veh55 : Vehicle := { baseVeh with vehId := 2, pos := ⟨11/2, 0, 0⟩ }

/-- World with two vehicles at distances 3.0 and 5.5 from the player. -/
def c5TwoNear : GState := { baseState with vehicles := [c5veh30, c5veh55] }

/-- World with two vehicles at distances 7.0 and 8.0 from the player. -/
def c5TwoFar : GState :=
  { baseState with vehicles :=
      [{ baseVeh with vehId := 1, pos := ⟨7, 0, 0⟩ },
       { baseVeh with vehId := 2, pos := ⟨8, 0, 0⟩ }] }

/-- Nearby vehicle whose two passenger seats are both occupied. -/
def c5vehFull : Vehicle :=
  { baseVeh with
      vehId := 4, pos := ⟨3, 0, 0⟩, maxPassengers := 2,
      occupants := [none, some 5, some 6] }

/-- World whose only nearby vehicle has no free passenger seat. -/
def c5FullSeats : GState := { baseState with vehicles := [c5vehFull] }

/-- Nearby locked vehicle for the abandoned-entry scenario. -/
def c7veh : Vehicle := { baseVeh with vehId := 3, pos := ⟨3, 0, 0⟩, doorLockState := 1 }

/-- State with the enter/exit key just released next to a locked
vehicle. -/
def c7State : GState :=
  { baseState with
      p := { basePlayer with previousCS := ⟨true, false⟩ },
      vehicles := [c7veh] }

/-- State with an entry/exit request outstanding and a fresh input edge. -/
def c8State : GState :=
  { baseState with
      p := { basePlayer with
               vee := ⟨false, false, true, none, 0⟩,
               previousCS := ⟨true, true⟩ } }

/-- Health-lock scenario, step 0: spawned remote player at full health. -/
def c2s0 : GState := baseState

/-- Health-lock scenario after lockHealth 50. -/
def c2s1 : GState := lockHealth 50 c2s0

/-- Health-lock scenario after an external simulation write of 10. -/
def c2s2 : GState := { c2s1 with p.sim.charHealth := 10 }

/-- Health-lock scenario after the first maintenance tick. -/
def c2s3 : GState := ((pulse padIdle c2s2).getD (c2s2, [])).1

/-- Health-lock scenario: second external write of 10 after the first
maintenance tick. -/
def c2s4 : GState := { c2s3 with p.sim.charHealth := 10 }

/-- Health-lock scenario after the second maintenance tick. -/
def c2s5 : GState := ((pulse padIdle c2s4).getD (c2s4, [])).1

/-- Player registry for the kill-attribution scenario: slot 0 empty, slot 1
a spawned driver of the wrapper-entity-7 vehicle holding weapon 3. -/
def c6players : List RegPlayer :=
  [{ present := false, spawned := false, pedHandle := 0, currentWeapon := 0,
     inVehicle := false, isPassenger := false, vehWrapperHandle := 0 },
   { present := true, spawned := true, pedHandle := 100, currentWeapon := 3,
     inVehicle := true, isPassenger := false, vehWrapperHandle := 7 }]

/-- Streamed vehicle list for the kill-attribution scenario: vehicle id 7
with game entity handle 700. -/
def c6vehicles : List KVehicle := [⟨7, 700⟩]

/-- Interpolation round-trip start state (clock at 5). -/
def c3State : GState := { baseState with time := 5 }

/-- In-vehicle state for the suppressed-SetPosition scenario. -/
def c10State : GState := { baseState with p.sim.inVehicle := true }

/-- State-machine invariant behind the enter/exit mutual exclusion: an
entry in flight holds no current vehicle reference, an exit in flight
does. -/
def veeInv (p : Player) : Prop :=
  (p.vee.entering = true → p.pVehicle = none) ∧
  (p.vee.exiting = true → p.pVehicle ≠ none)

/-- Interpolation-run invariant for the round-trip argument: flags frozen,
and either the interpolation window is live with the position the alpha
point between start position and target, or it is finished on the
target. -/
def interpGood (p0 P : Vec3) (T delay : Nat) (st : GState) : Prop :=
  st.p.spawned = true ∧ st.p.sim.inVehicle = false ∧
  st.p.vee.entering = false ∧ st.p.vee.exiting = false ∧ st.p.pVehicle = none ∧
  ((st.p.interpFinishTime = T + delay ∧ st.p.interpTarget = P ∧
    st.p.interpError = P - p0 ∧ st.p.interpStartTime = T ∧
    0 ≤ st.p.interpLastAlpha ∧ st.p.interpLastAlpha ≤ 1 ∧
    st.p.pos = p0 + st.p.interpLastAlpha • (P - p0)) ∨
   (st.p.interpFinishTime = 0 ∧ st.p.pos = P))

/-- Projection of the fields the health-lock argument tracks across a
pulse: simulated health, the lock flag, spawned, the locked value, and the
local-player flag. -/
def healthCore (s : GState) : Nat × Bool × Bool × Nat × Bool :=
  (s.p.sim.charHealth, s.p.healthLocked, s.p.spawned, s.p.lockedHealth, s.p.isLocalPlayer)

/-! ## Helper lemmas -/

/-- Componentwise form of vector subtraction. -/
@[simp] theorem vec3_sub (a b : Vec3) : a - b = ⟨a.x - b.x, a.y - b.y, a.z - b.z⟩ := rfl

/-- Componentwise form of vector addition. -/
@[simp] theorem vec3_add (a b : Vec3) : a + b = ⟨a.x + b.x, a.y + b.y, a.z + b.z⟩ := rfl

/-- Componentwise form of scalar multiplication. -/
@[simp] theorem vec3_smul (c : ℚ) (a : Vec3) : c • a = ⟨c * a.x, c * a.y, c * a.z⟩ := rfl

/-- Evaluation of the squared norm on components. -/
@[simp] theorem normSq_mk (x y z : ℚ) :
    normSq ⟨x, y, z⟩ = x * x + y * y + z * z := rfl

/-- The zero vector as components. -/
@[simp] theorem vec3_zero : Vec3.zero = ⟨0, 0, 0⟩ := rfl

/-- Setting the requesting and entering flags to values they already hold
is the identity. -/
theorem veeSetFlagsSelf (v : VehicleEnterExit) (h1 : v.requesting = false)
    (h2 : v.entering = false) :
    ({ v with requesting := false, entering := false } : VehicleEnterExit) = v := by
  cases v
  simp_all

/-! ## Claim theorems (first batch) -/

/-- Claim C8: while the requesting flag is true, CheckVehicleEntryExitKey
drops every enter/exit or horn input edge: it sends no message and changes
no state at all, so at most one entry/exit request is outstanding per
player (diagnostic logging is the only source effect, and it carries no
state). -/
theorem C8_outstanding_request_drops_edges (s : GState)
    (h : s.p.vee.requesting = true) :
    checkVehicleEntryExitKey s = some (s, []) := by
  unfold checkVehicleEntryExitKey
  simp [h]

/-- Witness for C8 at the concrete requesting state with a fresh edge. -/
theorem C8_witness : checkVehicleEntryExitKey c8State = some (c8State, []) :=
  C8_outstanding_request_drops_edges c8State (by decide)

/-- Claim C9 (code bug): ExitVehicle on a spawned player with no current
vehicle reference dereferences the null vehicle pointer in the health /
petrol-tank check (line 2128 of the source), modelled as the none result,
instead of degrading to clearing the pending entry task. -/
theorem C9_exit_without_vehicle_dereferences_null (s : GState) (m : Bool)
    (hs : s.p.spawned = true) (hv : s.p.pVehicle = none) :
    exitVehicle m s = none := by
  unfold exitVehicle
  simp [hs, hv]

/-- Witness for C9 at the baseline spawned vehicle-less player. -/
theorem C9_witness : exitVehicle true baseState = none :=
  C9_exit_without_vehicle_dereferences_null baseState true (by decide) (by decide)

/-- Claim C6 (code bug): with the last-damage entity equal to the vehicle
wrapper occupied by connected spawned driver 1 (weapon 3, vehicle id 7),
GetKillInfo returns the killer player id 1 but stores that same player
index, not the vehicle id 7, into the vehicle-id slot of the triple. -/
theorem C6_killinfo_vehicle_slot :
    getKillInfo true (some (GameEntity.wrapperE 7)) c6players c6vehicles =
      some (some 1, some 1, some 3) ∧ (some 1 : Option Nat) ≠ some 7 := by
  constructor
  · decide
  · decide

/-- Claim C2 counterexample: lockHealth 50, an external simulation write of
10, then one maintenance tick leaves health restored to 50 but the lock
CLEARED (the maintenance pass re-applies the value through the plain
setter, which drops the lock), so a second external write of 10 survives
the next maintenance tick and getHealth returns 10, not 50. -/
theorem C2_counterexample :
    getHealth c2s2 = 50 ∧
    c2s3.p.sim.charHealth = 50 ∧
    c2s3.p.healthLocked = false ∧
    getHealth c2s4 = 10 ∧
    getHealth c2s5 = 10 ∧
    c2s5.p.sim.charHealth = 10 := by
  refine ⟨rfl, rfl, rfl, rfl, rfl, rfl⟩

/-- Claim C7: when the entry input edge fires (enter/exit or horn release,
with no fresh press), the closest-vehicle search succeeds, but the found
vehicle is door-locked (lock state above 0), the entry attempt is
abandoned on the spot: CheckVehicleEntryExitKey sends no message, starts
no entry task, and leaves the requesting and entering flags false (the
state is entirely unchanged). -/
theorem C7_locked_door_abandons_entry (s : GState) (v : Vehicle) (seat : Nat)
    (hs : s.p.spawned = true) (hi : s.inputEnabled = true)
    (hc : s.controlsDisabled = false)
    (hpressed : (s.p.currentCS.enterExitVehicle && !s.p.previousCS.enterExitVehicle) = false)
    (hedge : ((s.p.previousCS.enterExitVehicle && !s.p.currentCS.enterExitVehicle) ||
              (s.p.previousCS.horn && !s.p.currentCS.horn)) = true)
    (hreq : s.p.vee.requesting = false) (hveh : s.p.pVehicle = none)
    (hent : s.p.vee.entering = false)
    (hfound : getClosestVehicle (s.p.previousCS.horn && !s.p.currentCS.horn) s = some (v, seat))
    (hvsp : v.spawned = true) (hlock : 0 < v.doorLockState) :
    checkVehicleEntryExitKey s = some (s, []) := by
  obtain ⟨p, vehs, tt, ie, cd⟩ := s
  obtain ⟨pid, loc, sp, pos, pv, seat0, vee0, hl, lh, al, la, itg, ier, ist, ift,
    ila, ccs, pcs, vdc, sim0⟩ := p
  obtain ⟨ent, ex, rq, pvd, ps⟩ := vee0
  dsimp only at hs hi hc hpressed hedge hreq hveh hent hfound
  subst hs hi hc hreq hveh hent
  unfold checkVehicleEntryExitKey
  simp [hpressed, hedge, hfound, hvsp, hlock, isInVehicle]

/-- Witness for C7 at the concrete locked-vehicle state. -/
theorem C7_witness : checkVehicleEntryExitKey c7State = some (c7State, []) :=
  C7_locked_door_abandons_entry c7State c7veh 0 (by decide) (by decide) (by decide)
    (by decide) (by decide) (by decide) (by decide) (by decide)
    (by norm_num [getClosestVehicle, getPosition, scanVehicles, distSq,
      c7State, c7veh, baseState, basePlayer, baseVeh, padIdle, simBase])
    (by decide) (by decide)

/-- Claim C10: SetPosition leaves the world position unchanged whenever
the ped is internally seated in a vehicle or an enter/exit is in progress
(the spawned-and-not-in-vehicle-and-not-transitioning guard suppresses the
matrix write), so its only remaining effect is clearing the interpolation
deadline when the reset flag is passed; consequently an interpolation tick
cannot move the ped mid-possession-transition. -/
theorem C10_setposition_suppressed_in_vehicle :
    (∀ (s : GState) (v : Vec3) (b : Bool),
       (s.p.sim.inVehicle = true ∨ s.p.vee.entering = true ∨ s.p.vee.exiting = true) →
       (setPosition v b s).p.pos = s.p.pos ∧
       setPosition v b s = (if b then removeTargetPosition s else s)) ∧
    (∀ s : GState,
       (s.p.sim.inVehicle = true ∨ s.p.vee.entering = true ∨ s.p.vee.exiting = true) →
       (updateTargetPosition s).p.pos = s.p.pos) := by
  have hsup : ∀ (v : Vec3) (b : Bool) (s : GState),
      (s.p.sim.inVehicle = true ∨ s.p.vee.entering = true ∨ s.p.vee.exiting = true) →
      setPosition v b s = (if b then removeTargetPosition s else s) := by
    intro v b s h
    have hg : (s.p.spawned && !internalIsInVehicle s && !hasVehicleEnterExit s.p) = false := by
      rcases h with h | h | h
      · cases hsp : s.p.spawned <;> simp [internalIsInVehicle, hasVehicleEnterExit, h, hsp]
      · simp [hasVehicleEnterExit, h]
      · simp [hasVehicleEnterExit, h]
    unfold setPosition
    rw [hg]
    simp
  have hpos : ∀ (v : Vec3) (st : GState),
      (st.p.sim.inVehicle = true ∨ st.p.vee.entering = true ∨ st.p.vee.exiting = true) →
      (setPosition v false st).p.pos = st.p.pos := by
    intro v st hh
    rw [hsup v false st hh]
    simp
  constructor
  · intro s v b h
    rw [hsup v b s h]
    cases b <;> simp [removeTargetPosition]
  · intro s h
    unfold updateTargetPosition
    split
    · dsimp only
      by_cases hone : clamp 0 (unlerp s.p.interpStartTime s.time s.p.interpFinishTime) 1 = 1 <;>
        by_cases hsnap : 25 < distSq (getPosition s) s.p.interpTarget <;>
          simp only [hone, hsnap, if_true, if_false, ite_true, ite_false] <;>
            exact hpos _ _ h
    · rfl

/-- Witness for C10 at the concrete in-vehicle state. -/
theorem C10_witness :
    (setPosition ⟨1, 1, 1⟩ false c10State).p.pos = c10State.p.pos :=
  (C10_setposition_suppressed_in_vehicle.1 c10State ⟨1, 1, 1⟩ false (Or.inl (by decide))).1

/-- SetArmour leaves the health-lock fields alone. -/
theorem setArmour_healthCore (a : Int) (s : GState) :
    healthCore (setArmour a s) = healthCore s := by
  unfold setArmour
  split_ifs <;> simp [healthCore]

/-- Clearing the entry task leaves the health-lock fields alone. -/
theorem clearVehicleEntryTask_healthCore (s : GState) :
    healthCore (clearVehicleEntryTask s) = healthCore s := by
  unfold clearVehicleEntryTask
  split_ifs <;> simp [healthCore]

/-- Clearing the exit task leaves the health-lock fields alone. -/
theorem clearVehicleExitTask_healthCore (s : GState) :
    healthCore (clearVehicleExitTask s) = healthCore s := by
  unfold clearVehicleExitTask
  split_ifs <;> simp [healthCore]

/-- ResetVehicleEnterExit leaves the health-lock fields alone. -/
theorem resetVehicleEnterExit_healthCore (s : GState) :
    healthCore (resetVehicleEnterExit s) = healthCore s := by
  unfold resetVehicleEnterExit
  rw [clearVehicleExitTask_healthCore, clearVehicleEntryTask_healthCore]
  simp [healthCore]

/-- EnterVehicle leaves the health-lock fields alone. -/
theorem enterVehicle_healthCore (va : Option Nat) (seat : Nat) (s : GState) :
    healthCore (enterVehicle va seat s) = healthCore s := by
  cases va with
  | none => simp [enterVehicle]
  | some vid =>
    unfold enterVehicle
    dsimp only
    split_ifs <;>
      simp [healthCore, forceStreamIn, updateVeh, resetInterpolation, removeTargetPosition]

/-- ExitVehicle leaves the health-lock fields alone when it returns. -/
theorem exitVehicle_healthCore (m : Bool) (s s2 : GState) (ms : List Msg)
    (h : exitVehicle m s = some (s2, ms)) : healthCore s2 = healthCore s := by
  unfold exitVehicle at h
  by_cases hsp : s.p.spawned = true
  · rw [if_pos (by simp [hsp])] at h
    cases hv : s.p.pVehicle with
    | none => rw [hv] at h; simp at h
    | some vid =>
      rw [hv] at h
      dsimp only at h
      split_ifs at h <;>
        (obtain ⟨rfl, rfl⟩ := Prod.mk.injEq _ _ _ _ |>.mp (Option.some.injEq _ _ |>.mp h);
         simp [healthCore, updateVeh, resetInterpolation, removeTargetPosition])
  · rw [if_neg (by simp [hsp])] at h
    obtain ⟨rfl, rfl⟩ := Prod.mk.injEq _ _ _ _ |>.mp (Option.some.injEq _ _ |>.mp h)
    rfl

/-- The seated entry-completion stage leaves the health-lock fields
alone. -/
theorem pveInVehicleStage_healthCore (s s2 : GState) (ms : List Msg)
    (h : pveInVehicleStage s = some (s2, ms)) : healthCore s2 = healthCore s := by
  unfold pveInVehicleStage at h
  split_ifs at h <;>
    first
    | (obtain ⟨rfl, rfl⟩ := Prod.mk.injEq _ _ _ _ |>.mp (Option.some.injEq _ _ |>.mp h); rfl)
    | (cases hv : s.p.vee.pendVehicle with
       | none => rw [hv] at h; cases h
       | some vid =>
         rw [hv] at h
         dsimp only at h
         split_ifs at h <;>
           (obtain ⟨rfl, rfl⟩ := Prod.mk.injEq _ _ _ _ |>.mp (Option.some.injEq _ _ |>.mp h);
            simp [healthCore, updateVeh]))

/-- The unseated entry-handling stage leaves the health-lock fields
alone. -/
theorem pveEnteringStage_healthCore (s s2 : GState) (ms : List Msg)
    (h : pveEnteringStage s = some (s2, ms)) : healthCore s2 = healthCore s := by
  unfold pveEnteringStage at h
  split_ifs at h <;>
    first
    | (obtain ⟨rfl, rfl⟩ := Prod.mk.injEq _ _ _ _ |>.mp (Option.some.injEq _ _ |>.mp h); rfl)
    | (obtain ⟨rfl, rfl⟩ := Prod.mk.injEq _ _ _ _ |>.mp (Option.some.injEq _ _ |>.mp h);
       rw [enterVehicle_healthCore])
    | (obtain ⟨rfl, rfl⟩ := Prod.mk.injEq _ _ _ _ |>.mp (Option.some.injEq _ _ |>.mp h);
       rw [clearVehicleEntryTask_healthCore])
    | (cases hv : s.p.vee.pendVehicle with
       | none => rw [hv] at h; cases h
       | some vid =>
         rw [hv] at h
         dsimp only at h
         split_ifs at h <;>
           (obtain ⟨rfl, rfl⟩ := Prod.mk.injEq _ _ _ _ |>.mp (Option.some.injEq _ _ |>.mp h);
            simp [healthCore, updateVeh]))

/-- The forceful-exit stage leaves the health-lock fields alone. -/
theorem pveForcefulStage_healthCore (s : GState) :
    healthCore (pveForcefulStage s).1 = healthCore s := by
  unfold pveForcefulStage
  cases s.p.pVehicle <;> simp [healthCore, updateVeh]

/-- The unseated exit-handling stage leaves the health-lock fields
alone. -/
theorem pveExitingStage_healthCore (s s2 : GState) (ms : List Msg)
    (h : pveExitingStage s = some (s2, ms)) : healthCore s2 = healthCore s := by
  unfold pveExitingStage at h
  split_ifs at h
  · cases hv : s.p.pVehicle with
    | none => rw [hv] at h; cases h
    | some vid =>
      rw [hv] at h
      dsimp only at h
      obtain ⟨rfl, rfl⟩ := Prod.mk.injEq _ _ _ _ |>.mp (Option.some.injEq _ _ |>.mp h)
      simp [healthCore, updateVeh]
  · obtain ⟨rfl, rfl⟩ := Prod.mk.injEq _ _ _ _ |>.mp (Option.some.injEq _ _ |>.mp h)
    rfl
  · have hx := Option.some.inj h
    have hcore := pveForcefulStage_healthCore (clearVehicleExitTask s)
    rw [hx] at hcore
    exact hcore.trans (clearVehicleExitTask_healthCore s)
  · have hx := Option.some.inj h
    have hcore := pveForcefulStage_healthCore s
    rw [hx] at hcore
    exact hcore

/-- ProcessVehicleEntryExit leaves the health-lock fields alone when it
returns. -/
theorem processVehicleEntryExit_healthCore (s s2 : GState) (ms : List Msg)
    (h : processVehicleEntryExit s = some (s2, ms)) : healthCore s2 = healthCore s := by
  unfold processVehicleEntryExit at h
  split_ifs at h
  · exact pveInVehicleStage_healthCore s s2 ms h
  · cases h1 : pveEnteringStage s with
    | none => rw [h1] at h; cases h
    | some r1 =>
      obtain ⟨s1, ms1⟩ := r1
      rw [h1] at h
      dsimp only at h
      cases h2 : pveExitingStage s1 with
      | none => rw [h2] at h; cases h
      | some r2 =>
        obtain ⟨s2x, ms2x⟩ := r2
        rw [h2] at h
        dsimp only at h
        obtain ⟨rfl, rfl⟩ := Prod.mk.injEq _ _ _ _ |>.mp (Option.some.inj h)
        exact (pveExitingStage_healthCore s1 s2x ms2x h2).trans
          (pveEnteringStage_healthCore s s1 ms1 h1)
  · obtain ⟨rfl, rfl⟩ := Prod.mk.injEq _ _ _ _ |>.mp (Option.some.injEq _ _ |>.mp h)
    rfl

/-- SetPosition leaves the health-lock fields alone. -/
theorem setPosition_healthCore (v : Vec3) (b : Bool) (s : GState) :
    healthCore (setPosition v b s) = healthCore s := by
  unfold setPosition removeTargetPosition
  split_ifs <;> simp [healthCore]

/-- An interpolation tick leaves the health-lock fields alone. -/
theorem updateTargetPosition_healthCore (s : GState) :
    healthCore (updateTargetPosition s) = healthCore s := by
  unfold updateTargetPosition
  split
  · dsimp only
    by_cases hone : clamp 0 (unlerp s.p.interpStartTime s.time s.p.interpFinishTime) 1 = 1 <;>
      by_cases hsnap : 25 < distSq (getPosition s) s.p.interpTarget <;>
        simp only [hone, hsnap, if_true, if_false, ite_true, ite_false] <;>
          exact setPosition_healthCore _ _ _
  · rfl

/-- CheckVehicleEntryExitKey leaves the health-lock fields alone when it
returns. -/
theorem checkVehicleEntryExitKey_healthCore (s s2 : GState) (ms : List Msg)
    (h : checkVehicleEntryExitKey s = some (s2, ms)) : healthCore s2 = healthCore s := by
  unfold checkVehicleEntryExitKey at h
  by_cases c1 : (s.p.spawned && s.inputEnabled && !s.controlsDisabled) = true
  case neg =>
    rw [if_neg c1] at h
    obtain ⟨rfl, rfl⟩ := Prod.mk.injEq _ _ _ _ |>.mp (Option.some.inj h)
    rfl
  rw [if_pos c1] at h
  by_cases c2 : (s.p.currentCS.enterExitVehicle && !s.p.previousCS.enterExitVehicle) = true
  · rw [if_pos c2] at h
    by_cases c3 : (!s.p.vee.requesting && isInVehicle s.p && !s.p.vee.exiting) = true
    · rw [if_pos c3] at h
      cases hv : s.p.pVehicle with
      | none =>
        rw [hv] at h
        obtain ⟨rfl, rfl⟩ := Prod.mk.injEq _ _ _ _ |>.mp (Option.some.inj h)
        rfl
      | some vid =>
        rw [hv] at h
        dsimp only at h
        by_cases c4 : (vehD vid s).isNetworkVehicle = true
        · rw [if_pos c4] at h
          obtain ⟨rfl, rfl⟩ := Prod.mk.injEq _ _ _ _ |>.mp (Option.some.inj h)
          rfl
        · rw [if_neg c4] at h
          exact exitVehicle_healthCore true s s2 ms h
    · rw [if_neg c3] at h
      obtain ⟨rfl, rfl⟩ := Prod.mk.injEq _ _ _ _ |>.mp (Option.some.inj h)
      rfl
  · rw [if_neg c2] at h
    dsimp only at h
    by_cases c5 : (s.p.previousCS.enterExitVehicle && !s.p.currentCS.enterExitVehicle ||
        s.p.previousCS.horn && !s.p.currentCS.horn) = true
    · rw [if_pos c5] at h
      by_cases c6 : (!s.p.vee.requesting) = true
      · rw [if_pos c6] at h
        by_cases c7 : (!isInVehicle s.p && !s.p.vee.entering) = true
        · rw [if_pos c7] at h
          cases hf : getClosestVehicle (s.p.previousCS.horn && !s.p.currentCS.horn) s with
          | none =>
            rw [hf] at h
            obtain ⟨rfl, rfl⟩ := Prod.mk.injEq _ _ _ _ |>.mp (Option.some.inj h)
            rfl
          | some vp =>
            obtain ⟨v, seat⟩ := vp
            rw [hf] at h
            dsimp only at h
            by_cases c8 : v.spawned = true
            · rw [if_pos c8] at h
              by_cases c9 : 0 < v.doorLockState
              · rw [if_pos c9] at h
                obtain ⟨rfl, rfl⟩ := Prod.mk.injEq _ _ _ _ |>.mp (Option.some.inj h)
                rfl
              · rw [if_neg c9] at h
                by_cases c10 : v.isNetworkVehicle = true
                · rw [if_pos c10] at h
                  obtain ⟨rfl, rfl⟩ := Prod.mk.injEq _ _ _ _ |>.mp (Option.some.inj h)
                  rfl
                · rw [if_neg c10] at h
                  obtain ⟨rfl, rfl⟩ := Prod.mk.injEq _ _ _ _ |>.mp (Option.some.inj h)
                  exact enterVehicle_healthCore (some v.vehId) seat s
            · rw [if_neg c8] at h
              obtain ⟨rfl, rfl⟩ := Prod.mk.injEq _ _ _ _ |>.mp (Option.some.inj h)
              rfl
        · rw [if_neg c7] at h
          obtain ⟨rfl, rfl⟩ := Prod.mk.injEq _ _ _ _ |>.mp (Option.some.inj h)
          rfl
      · rw [if_neg c6] at h
        obtain ⟨rfl, rfl⟩ := Prod.mk.injEq _ _ _ _ |>.mp (Option.some.inj h)
        rfl
    · rw [if_neg c5] at h
      obtain ⟨rfl, rfl⟩ := Prod.mk.injEq _ _ _ _ |>.mp (Option.some.inj h)
      rfl

/-- The vehicle-death polling stage leaves the health-lock fields alone. -/
theorem vehicleDeathCheckStage_healthCore (s : GState) :
    healthCore (vehicleDeathCheckStage s).1 = healthCore s := by
  unfold vehicleDeathCheckStage
  by_cases hd : s.p.vehicleDeathCheck = true
  · rw [if_pos hd]
    cases hv : s.p.pVehicle with
    | none => rfl
    | some vid =>
      dsimp only
      split_ifs <;> rfl
  · rw [if_neg hd]

/-- Claim C2 (amended): after lockHealth the FIRST maintenance tick
restores the simulated health to the locked value and getHealth reads the
locked value before and after that tick; but because the maintenance pass
re-applies the value through the plain setter SetHealth, that same tick
clears the lock, so the re-application does not repeat on later ticks and
a later external write survives. -/
theorem C2_health_lock_amended :
    (∀ (s : GState) (pad : ControlState) (s2 : GState) (ms : List Msg),
       s.p.spawned = true → s.p.healthLocked = true →
       pulse pad s = some (s2, ms) →
       getHealth s = s.p.lockedHealth ∧
       s2.p.sim.charHealth = s.p.lockedHealth ∧
       getHealth s2 = s.p.lockedHealth ∧
       s2.p.healthLocked = false) ∧
    (getHealth c2s2 = 50 ∧ c2s3.p.sim.charHealth = 50 ∧ getHealth c2s3 = 50 ∧
     c2s3.p.healthLocked = false) := by
  constructor
  · intro s pad s2 ms hs hl hp
    have hread : getHealth s = s.p.lockedHealth := by
      unfold getHealth
      rw [if_pos hl]
    refine ⟨hread, ?_⟩
    unfold pulse at hp
    rw [if_pos (by simp [hs])] at hp
    dsimp only at hp
    -- name the intermediate states of the tick
    set s1 : GState := if s.p.isLocalPlayer = true then
        { s with p.previousCS := s.p.currentCS, p.currentCS := pad }
      else s with hs1
    have hs1core : s1.p.spawned = true ∧ s1.p.healthLocked = true ∧
        s1.p.lockedHealth = s.p.lockedHealth := by
      rw [hs1]
      split_ifs <;> exact ⟨hs, hl, rfl⟩
    rw [if_pos hs1core.2.1] at hp
    set sH : GState := setHealth s1.p.lockedHealth s1 with hsH
    have hHcore : sH.p.sim.charHealth = s.p.lockedHealth ∧ sH.p.healthLocked = false ∧
        sH.p.spawned = true := by
      rw [hsH]
      unfold setHealth
      rw [if_pos (by simp [hs1core.1])]
      exact ⟨by simp [hs1core.2.2], rfl, by simp [hs1core.1]⟩
    set s3 : GState := if sH.p.armourLocked = true then setArmour sH.p.lockedArmour sH else sH
      with hs3
    have h3core : healthCore s3 = healthCore sH := by
      rw [hs3]
      split_ifs
      · exact setArmour_healthCore _ _
      · rfl
    cases hproc : processVehicleEntryExit s3 with
    | none => rw [hproc] at hp; cases hp
    | some r4 =>
      obtain ⟨s4, ms1⟩ := r4
      rw [hproc] at hp
      dsimp only at hp
      have h4core : healthCore s4 = healthCore s3 :=
        processVehicleEntryExit_healthCore s3 s4 ms1 hproc
      have hfinal : healthCore s2 = healthCore s4 := by
        by_cases hloc : s4.p.isLocalPlayer = true
        · rw [if_pos hloc] at hp
          cases hchk : checkVehicleEntryExitKey s4 with
          | none => rw [hchk] at hp; cases hp
          | some r5 =>
            obtain ⟨s5, ms2⟩ := r5
            rw [hchk] at hp
            dsimp only at hp
            obtain ⟨rfl, rfl⟩ := Prod.mk.injEq _ _ _ _ |>.mp (Option.some.inj hp)
            exact (vehicleDeathCheckStage_healthCore s5).trans
              (checkVehicleEntryExitKey_healthCore s4 s5 ms2 hchk)
        · rw [if_neg hloc] at hp
          obtain ⟨rfl, rfl⟩ := Prod.mk.injEq _ _ _ _ |>.mp (Option.some.inj hp)
          split_ifs
          · exact updateTargetPosition_healthCore s4
          · rfl
      have hchain : healthCore s2 = healthCore sH := by
        rw [hfinal, h4core, h3core]
      simp only [healthCore, Prod.mk.injEq] at hchain
      obtain ⟨e1, e2, e3, _⟩ := hchain
      refine ⟨by rw [e1]; exact hHcore.1, ?_, by rw [e2]; exact hHcore.2.1⟩
      unfold getHealth
      rw [if_neg (by rw [e2, hHcore.2.1]; simp), if_pos (by rw [e3, hHcore.2.2])]
      rw [e1]; exact hHcore.1
  · exact ⟨rfl, rfl, rfl, rfl⟩

/-- Witness for C2 at the concrete locked state. -/
theorem C2_witness :
    getHealth c2s2 = c2s2.p.lockedHealth ∧
    c2s3.p.sim.charHealth = c2s2.p.lockedHealth ∧
    getHealth c2s3 = c2s2.p.lockedHealth ∧
    c2s3.p.healthLocked = false :=
  C2_health_lock_amended.1 c2s2 padIdle c2s3 [] rfl rfl rfl

/-- Claim C4: when SetTargetPosition is handed a target farther than the
5-world-unit snap threshold from the current position (squared distance
beyond 25), the very next interpolation tick writes the position exactly to
the target and clears the deadline instead of interpolating. -/
theorem C4_snap_beyond_threshold (s : GState) (P : Vec3) (delay t : Nat)
    (hs : s.p.spawned = true) (hin : s.p.sim.inVehicle = false)
    (hent : s.p.vee.entering = false) (hex : s.p.vee.exiting = false)
    (hveh : s.p.pVehicle = none) (hfin : s.p.interpFinishTime = 0)
    (hfar : 25 < distSq s.p.pos P) (hlive : 0 < s.time + delay) :
    (tickAt t (setTargetPosition P delay s)).p.pos = P ∧
    (tickAt t (setTargetPosition P delay s)).p.interpFinishTime = 0 := by
  have h1 : setTargetPosition P delay s =
      { s with
          p.interpTarget := P,
          p.interpError := P - s.p.pos,
          p.interpStartTime := s.time,
          p.interpFinishTime := s.time + delay,
          p.interpLastAlpha := 0 } := by
    unfold setTargetPosition updateTargetPosition
    simp [hasTargetPosition, hfin, hs, getPosition, hveh]
  rw [h1]
  unfold tickAt updateTargetPosition setPosition
  by_cases hone : clamp 0 (unlerp s.time t (s.time + delay)) 1 = 1 <;>
    simp [hone, hasTargetPosition, getPosition, internalIsInVehicle, hasVehicleEnterExit,
      hs, hin, hent, hex, hveh, hfar, (show s.time + delay ≠ 0 by omega)]

/-- Witness for C4: target 6 units away, snap on the next tick. -/
theorem C4_witness :
    (tickAt 10 (setTargetPosition ⟨6, 0, 0⟩ 1000 baseState)).p.pos = ⟨6, 0, 0⟩ ∧
    (tickAt 10 (setTargetPosition ⟨6, 0, 0⟩ 1000 baseState)).p.interpFinishTime = 0 :=
  C4_snap_beyond_threshold baseState ⟨6, 0, 0⟩ 1000 10 (by decide) (by decide)
    (by decide) (by decide) (by decide) (by decide)
    (by norm_num [distSq, baseState, basePlayer]) (by decide)

/-- The running minimum of the vehicle scan never increases. -/
theorem scanVehicles_fst_le (pos : Vec3) :
    ∀ (l : List Vehicle) (c : ℚ) (b : Option Vehicle), (scanVehicles pos l c b).1 ≤ c := by
  intro l
  induction l with
  | nil => intro c b; simp [scanVehicles]
  | cons u rest ih =>
    intro c b
    unfold scanVehicles
    dsimp only
    by_cases hd : distSq pos u.pos < c
    · rw [if_pos hd]
      exact le_trans (ih _ _) (le_of_lt hd)
    · rw [if_neg hd]
      exact ih _ _

/-- The running minimum of the vehicle scan bounds every scanned
distance. -/
theorem scanVehicles_min (pos : Vec3) :
    ∀ (l : List Vehicle) (c : ℚ) (b : Option Vehicle) (u : Vehicle), u ∈ l →
      (scanVehicles pos l c b).1 ≤ distSq pos u.pos := by
  intro l
  induction l with
  | nil => intro c b u hu; cases hu
  | cons w rest ih =>
    intro c b u hu
    unfold scanVehicles
    dsimp only
    rcases List.mem_cons.mp hu with rfl | hu
    · by_cases hd : distSq pos u.pos < c
      · rw [if_pos hd]; exact scanVehicles_fst_le pos rest _ _
      · rw [if_neg hd]
        exact le_trans (scanVehicles_fst_le pos rest _ _) (not_lt.mp hd)
    · by_cases hd : distSq pos w.pos < c
      · rw [if_pos hd]; exact ih _ _ u hu
      · rw [if_neg hd]; exact ih _ _ u hu

/-- A vehicle produced by a scan that started empty beats the starting
cap strictly. -/
theorem scanVehicles_lt (pos : Vec3) :
    ∀ (l : List Vehicle) (c : ℚ) (v : Vehicle),
      (scanVehicles pos l c none).2 = some v → (scanVehicles pos l c none).1 < c := by
  intro l
  induction l with
  | nil => intro c v h; simp [scanVehicles] at h
  | cons u rest ih =>
    intro c v h
    unfold scanVehicles at h ⊢
    dsimp only at h ⊢
    by_cases hd : distSq pos u.pos < c
    · rw [if_pos hd] at h ⊢
      exact lt_of_le_of_lt (scanVehicles_fst_le pos rest _ _) hd
    · rw [if_neg hd] at h ⊢
      exact ih _ _ h

/-- The scan result carries its own distance as the final minimum and
comes from the scanned list (or from the seed). -/
theorem scanVehicles_track (pos : Vec3) :
    ∀ (l : List Vehicle) (c : ℚ) (b : Option Vehicle),
      (∀ w, b = some w → c = distSq pos w.pos) →
      ∀ v, (scanVehicles pos l c b).2 = some v →
        (scanVehicles pos l c b).1 = distSq pos v.pos ∧ (v ∈ l ∨ b = some v) := by
  intro l
  induction l with
  | nil =>
    intro c b hb v h
    simp [scanVehicles] at h ⊢
    exact ⟨hb v h, h⟩
  | cons u rest ih =>
    intro c b hb v h
    unfold scanVehicles at h ⊢
    dsimp only at h ⊢
    by_cases hd : distSq pos u.pos < c
    · rw [if_pos hd] at h ⊢
      have := ih _ (some u) (by intro w hw; cases hw; rfl) v h
      refine ⟨this.1, ?_⟩
      rcases this.2 with hm | hm
      · exact Or.inl (List.mem_cons_of_mem _ hm)
      · cases hm; exact Or.inl (List.mem_cons_self _ _)
    · rw [if_neg hd] at h ⊢
      have := ih _ b hb v h
      refine ⟨this.1, ?_⟩
      rcases this.2 with hm | hm
      · exact Or.inl (List.mem_cons_of_mem _ hm)
      · exact Or.inr hm

/-- Specification of the passenger-seat scan: a nonzero result is at least
one past the scan start, names a free seat, and every earlier passenger
seat from the scan start is occupied. -/
theorem seatScan_spec (v : Vehicle) :
    ∀ (fuel i r : Nat), seatScan v i fuel = r → r ≠ 0 →
      i + 1 ≤ r ∧ getPassenger v (r - 1) = none ∧
      ∀ j, i ≤ j → j + 1 < r → getPassenger v j ≠ none := by
  intro fuel
  induction fuel with
  | zero => intro i r h hr; rw [seatScan] at h; omega
  | succ fuel ih =>
    intro i r h hr
    rw [seatScan] at h
    by_cases hp : getPassenger v i = none
    · rw [if_pos hp] at h
      subst h
      refine ⟨le_refl _, by simpa using hp, ?_⟩
      intro j hij hj _
      omega
    · rw [if_neg hp] at h
      obtain ⟨h1, h2, h3⟩ := ih (i + 1) r h hr
      refine ⟨by omega, h2, ?_⟩
      intro j hij hj
      rcases Nat.eq_or_lt_of_le hij with rfl | hlt
      · exact hp
      · exact h3 j (by omega) hj

/-- The squared norm is nonnegative. -/
theorem normSq_nonneg (v : Vec3) : 0 ≤ normSq v := by
  unfold normSq
  have hx := mul_self_nonneg v.x
  have hy := mul_self_nonneg v.y
  have hz := mul_self_nonneg v.z
  linarith

/-- Telescoping of successive alpha slices of the same error vector. -/
theorem vec3_telescope (p e : Vec3) (a b : ℚ) :
    (p + a • e) + (b - a) • e = p + b • e := by
  cases p
  cases e
  simp only [vec3_add, vec3_smul, Vec3.mk.injEq]
  refine ⟨by ring, by ring, by ring⟩

/-- A zero alpha slice is the identity. -/
theorem vec3_zero_slice (p e : Vec3) : p + (0 : ℚ) • e = p := by
  cases p
  cases e
  simp only [vec3_smul, vec3_add, Vec3.mk.injEq]
  refine ⟨by ring, by ring, by ring⟩

/-- A full alpha slice of the error lands on the target. -/
theorem vec3_full_slice (p P : Vec3) : p + (1 : ℚ) • (P - p) = P := by
  cases p
  cases P
  simp only [vec3_sub, vec3_smul, vec3_add, Vec3.mk.injEq]
  refine ⟨by ring, by ring, by ring⟩

/-- A lerp from the origin is the plain alpha slice. -/
theorem lerp_zero (c : ℚ) (e : Vec3) : lerp Vec3.zero c e = c • e := by
  unfold lerp
  cases e
  simp only [vec3_zero, vec3_sub, vec3_smul, vec3_add, Vec3.mk.injEq]
  refine ⟨by ring, by ring, by ring⟩

/-- Distance from an alpha point of the segment to its target. -/
theorem distSq_alpha (p0 P : Vec3) (a : ℚ) :
    distSq (p0 + a • (P - p0)) P = (1 - a) * (1 - a) * distSq p0 P := by
  simp only [distSq, vec3_add, vec3_smul, vec3_sub, normSq_mk]
  ring

/-- The clamp to the unit interval is nonnegative. -/
theorem clamp01_nonneg (x : ℚ) : 0 ≤ clamp 0 x 1 :=
  le_min (le_max_left 0 x) zero_le_one

/-- The clamp to the unit interval is at most one. -/
theorem clamp01_le_one (x : ℚ) : clamp 0 x 1 ≤ 1 :=
  min_le_right _ _

/-- The clamp saturates at one from a ratio of at least one. -/
theorem clamp01_eq_one (x : ℚ) (h : 1 ≤ x) : clamp 0 x 1 = 1 :=
  min_eq_right (le_trans h (le_max_right 0 x))

/-- Past the deadline, the interpolation ratio is at least one. -/
theorem unlerp_ge_one (T delay t : Nat) (hd : 0 < delay) (hT : T + delay ≤ t) :
    1 ≤ unlerp T t (T + delay) := by
  unfold unlerp
  have hden : ((T + delay : Nat) : ℚ) - (T : ℚ) = (delay : ℚ) := by push_cast; ring
  rw [hden, le_div_iff (by exact_mod_cast hd)]
  have hc : (T : ℚ) + (delay : ℚ) ≤ (t : ℚ) := by exact_mod_cast hT
  linarith

/-- A tick with no active interpolation only moves the clock. -/
theorem tick_noop (t : Nat) (st : GState) (hf : st.p.interpFinishTime = 0) :
    tickAt t st = { st with time := t } := by
  unfold tickAt updateTargetPosition hasTargetPosition
  simp [hf]

/-- One interpolation tick preserves the round-trip invariant, and a tick
at or past the deadline finishes on the target. -/
theorem interpGood_tick (p0 P : Vec3) (T delay : Nat) (hd : 0 < delay)
    (hnear : distSq p0 P ≤ 25) (st : GState) (hg : interpGood p0 P T delay st) (t : Nat) :
    interpGood p0 P T delay (tickAt t st) ∧
    (T + delay ≤ t →
      (tickAt t st).p.interpFinishTime = 0 ∧ (tickAt t st).p.pos = P) := by
  obtain ⟨h1, h2, h3, h4, h5, hcase⟩ := hg
  rcases hcase with ⟨hf, ht, he, hst, ha0, ha1, hpos⟩ | ⟨hf, hpos⟩
  · -- live interpolation window
    have hcur : getPosition { st with time := t } = st.p.pos := by
      unfold getPosition
      simp [h1, h5]
    have hsnapv : ¬ (25 < distSq st.p.pos st.p.interpTarget) := by
      rw [ht, hpos, distSq_alpha, not_lt]
      have h0d : 0 ≤ distSq p0 P := normSq_nonneg _
      nlinarith
    have htp : hasTargetPosition ({ st with time := t } : GState).p = true := by
      unfold hasTargetPosition
      simp [hf]
      omega
    unfold tickAt updateTargetPosition
    rw [if_pos htp]
    dsimp only
    rw [hcur, hst, hf]
    rw [if_neg hsnapv]
    by_cases hone : clamp 0 (unlerp T t (T + delay)) 1 = 1
    · rw [if_pos hone]
      unfold setPosition
      rw [if_neg (show ¬(false = true) by simp)]
      rw [if_pos (by simp [internalIsInVehicle, hasVehicleEnterExit, h1, h2, h3, h4])]
      have hposP : st.p.pos + lerp Vec3.zero
          (clamp 0 (unlerp T t (T + delay)) 1 - st.p.interpLastAlpha)
          st.p.interpError = P := by
        rw [hone, lerp_zero, hpos, he, vec3_telescope, vec3_full_slice]
      exact ⟨⟨h1, h2, h3, h4, h5, Or.inr ⟨rfl, hposP⟩⟩, fun _ => ⟨rfl, hposP⟩⟩
    · rw [if_neg hone]
      unfold setPosition
      rw [if_neg (show ¬(false = true) by simp)]
      rw [if_pos (by simp [internalIsInVehicle, hasVehicleEnterExit, h1, h2, h3, h4])]
      have hposA : st.p.pos + lerp Vec3.zero
          (clamp 0 (unlerp T t (T + delay)) 1 - st.p.interpLastAlpha)
          st.p.interpError =
          p0 + (clamp 0 (unlerp T t (T + delay)) 1) • (P - p0) := by
        rw [lerp_zero, hpos, he, vec3_telescope]
      refine ⟨⟨h1, h2, h3, h4, h5,
        Or.inl ⟨rfl, ht, he, rfl, clamp01_nonneg _, clamp01_le_one _, hposA⟩⟩, ?_⟩
      intro hTt
      exact absurd (clamp01_eq_one _ (unlerp_ge_one T delay t hd hTt)) hone
  · -- already finished
    rw [tick_noop t st hf]
    exact ⟨⟨h1, h2, h3, h4, h5, Or.inr ⟨hf, hpos⟩⟩, fun _ => ⟨hf, hpos⟩⟩

/-- Repeated ticks preserve the round-trip invariant. -/
theorem interpGood_runTicks (p0 P : Vec3) (T delay : Nat) (hd : 0 < delay)
    (hnear : distSq p0 P ≤ 25) :
    ∀ (ts : List Nat) (st : GState), interpGood p0 P T delay st →
      interpGood p0 P T delay (runTicks ts st) := by
  intro ts
  induction ts with
  | nil => intro st hg; exact hg
  | cons t rest ih =>
    intro st hg
    exact ih _ (interpGood_tick p0 P T delay hd hnear st hg t).1

/-- A finished interpolation stays finished on the target through any
further ticks. -/
theorem runTicks_done (P : Vec3) :
    ∀ (ts : List Nat) (st : GState),
      st.p.interpFinishTime = 0 → st.p.pos = P →
      (runTicks ts st).p.interpFinishTime = 0 ∧ (runTicks ts st).p.pos = P := by
  intro ts
  induction ts with
  | nil => intro st hf hp; exact ⟨hf, hp⟩
  | cons t rest ih =>
    intro st hf hp
    have := tick_noop t st hf
    show (runTicks rest (tickAt t st)).p.interpFinishTime = 0 ∧
      (runTicks rest (tickAt t st)).p.pos = P
    rw [this]
    exact ih _ hf hp

/-- Ticking through a deadline inside the list finishes on the target. -/
theorem runTicks_reaches (p0 P : Vec3) (T delay : Nat) (hd : 0 < delay)
    (hnear : distSq p0 P ≤ 25) :
    ∀ (ts : List Nat) (st : GState), interpGood p0 P T delay st →
      (∃ t ∈ ts, T + delay ≤ t) →
      (runTicks ts st).p.interpFinishTime = 0 ∧ (runTicks ts st).p.pos = P := by
  intro ts
  induction ts with
  | nil => intro st _ hex; simp at hex
  | cons t rest ih =>
    intro st hg hex
    obtain ⟨hg2, hdone⟩ := interpGood_tick p0 P T delay hd hnear st hg t
    show (runTicks rest (tickAt t st)).p.interpFinishTime = 0 ∧
      (runTicks rest (tickAt t st)).p.pos = P
    rcases hex with ⟨t2, ht2, hle⟩
    rcases List.mem_cons.mp ht2 with rfl | hmem
    · obtain ⟨hf, hp⟩ := hdone hle
      exact runTicks_done P rest _ hf hp
    · exact ih _ hg2 ⟨t2, hmem, hle⟩

/-- Claim C3: for a spawned player outside any vehicle with no transition
in flight and no concurrent position mutation, setTargetPosition P delay
followed by interpolation ticks that reach the deadline leaves the
position exactly on P (the per-tick delta-alpha slices of the error vector
telescope to the full error; rational arithmetic stands in for the float
arithmetic of the source, so the float tolerance becomes exact equality),
provided the whole run stays inside the 5-unit snap radius so the snap is
never triggered; reaching alpha 1 clears the deadline, after which further
ticks are no-ops. -/
theorem C3_interpolation_round_trip (s : GState) (P : Vec3) (delay : Nat) (ts : List Nat)
    (hs : s.p.spawned = true) (hin : s.p.sim.inVehicle = false)
    (hent : s.p.vee.entering = false) (hex : s.p.vee.exiting = false)
    (hveh : s.p.pVehicle = none) (hfin : s.p.interpFinishTime = 0)
    (hd : 0 < delay) (hnear : distSq s.p.pos P ≤ 25)
    (hreach : ∃ t ∈ ts, s.time + delay ≤ t) :
    (runTicks ts (setTargetPosition P delay s)).p.pos = P ∧
    (runTicks ts (setTargetPosition P delay s)).p.interpFinishTime = 0 ∧
    ∀ t2 : Nat,
      updateTargetPosition { runTicks ts (setTargetPosition P delay s) with time := t2 } =
        { runTicks ts (setTargetPosition P delay s) with time := t2 } := by
  have h1 : setTargetPosition P delay s =
      { s with
          p.interpTarget := P,
          p.interpError := P - s.p.pos,
          p.interpStartTime := s.time,
          p.interpFinishTime := s.time + delay,
          p.interpLastAlpha := 0 } := by
    unfold setTargetPosition updateTargetPosition
    simp [hasTargetPosition, hfin, hs, getPosition, hveh]
  have hg0 : interpGood s.p.pos P s.time delay (setTargetPosition P delay s) := by
    rw [h1]
    refine ⟨hs, hin, hent, hex, hveh, Or.inl ⟨rfl, rfl, rfl, rfl, le_refl 0, zero_le_one,
      (vec3_zero_slice s.p.pos (P - s.p.pos)).symm⟩⟩
  obtain ⟨hf, hp⟩ := runTicks_reaches s.p.pos P s.time delay hd hnear ts
    (setTargetPosition P delay s) hg0 hreach
  refine ⟨hp, hf, ?_⟩
  intro t2
  unfold updateTargetPosition hasTargetPosition
  simp [hf]

/-- Witness for C3: target 3 units away, delay 1000, ticks at 505, 1005
and 1200 starting from clock 5. -/
theorem C3_witness :
    (runTicks [505, 1005, 1200] (setTargetPosition ⟨3, 0, 0⟩ 1000 c3State)).p.pos =
      ⟨3, 0, 0⟩ :=
  (C3_interpolation_round_trip c3State ⟨3, 0, 0⟩ 1000 [505, 1005, 1200]
    (by decide) (by decide) (by decide) (by decide) (by decide) (by decide) (by decide)
    (by norm_num [distSq, c3State, baseState, basePlayer])
    ⟨1005, by decide, by decide⟩).1

/-- Claim C5: GetClosestVehicle returns a streamed-in vehicle whose
distance to the player is under the 6.0-unit cap (squared cap 36) and
minimal among all streamed-in vehicles; in passenger mode the returned
seat is the first free passenger seat in increasing index order, and the
search fails when no passenger seat is free; concretely, with vehicles at
distances 3.0 and 5.5 the 3.0 one is chosen, with distances 7.0 and 8.0
the search fails, and with a single nearby fully occupied vehicle the
passenger search fails. -/
theorem C5_closest_vehicle_search :
    (∀ (s : GState) (bp : Bool) (v : Vehicle) (seat : Nat),
       getClosestVehicle bp s = some (v, seat) →
         v ∈ s.vehicles ∧ v.streamedIn = true ∧
         distSq (getPosition s) v.pos < 36 ∧
         (∀ u ∈ s.vehicles, u.streamedIn = true →
            distSq (getPosition s) v.pos ≤ distSq (getPosition s) u.pos) ∧
         (bp = true → 1 ≤ seat ∧ getPassenger v (seat - 1) = none ∧
            ∀ j, j + 1 < seat → getPassenger v j ≠ none) ∧
         (bp = false → seat = 0)) ∧
    getClosestVehicle false c5TwoNear = some (c5veh30, 0) ∧
    getClosestVehicle false c5TwoFar = none ∧
    getClosestVehicle true c5FullSeats = none := by
  refine ⟨?_, ?_, ?_, ?_⟩
  · intro s bp v seat h
    unfold getClosestVehicle at h
    by_cases hsp : s.p.spawned = true
    swap
    · simp [hsp] at h
    rw [if_pos (by simp [hsp])] at h
    dsimp only at h
    cases hscan : (scanVehicles (getPosition s) (s.vehicles.filter (fun u => u.streamedIn)) 36 none).2 with
    | none => rw [hscan] at h; simp at h
    | some best =>
      rw [hscan] at h
      have hlt := scanVehicles_lt (getPosition s) _ 36 best hscan
      obtain ⟨hval, hmem'⟩ :=
        scanVehicles_track (getPosition s) _ 36 none (by intro w hw; cases hw) best hscan
      have hmem : best ∈ s.vehicles.filter (fun u => u.streamedIn) := by
        rcases hmem' with hm | hm
        · exact hm
        · cases hm
      obtain ⟨hmemv, hstr⟩ := List.mem_filter.mp hmem
      have hmin : ∀ u ∈ s.vehicles, u.streamedIn = true →
          distSq (getPosition s) best.pos ≤ distSq (getPosition s) u.pos := by
        intro u hu hus
        rw [← hval]
        exact scanVehicles_min (getPosition s) _ 36 none u
          (List.mem_filter.mpr ⟨hu, by simp [hus]⟩)
      cases bp with
      | false =>
        simp only [Bool.false_eq_true, if_false] at h
        obtain ⟨rfl, rfl⟩ := Prod.mk.injEq _ _ _ _ |>.mp (Option.some.injEq _ _ |>.mp h)
        refine ⟨hmemv, by simpa using hstr, by rw [← hval]; exact hlt, hmin, ?_, ?_⟩
        · intro hbp; cases hbp
        · intro _; rfl
      | true =>
        simp only [if_true] at h
        by_cases h0 : firstFreePassengerSeat best = 0
        · simp [h0] at h
        · rw [if_neg h0] at h
          obtain ⟨rfl, rfl⟩ := Prod.mk.injEq _ _ _ _ |>.mp (Option.some.injEq _ _ |>.mp h)
          obtain ⟨hge, hfree, hocc⟩ :=
            seatScan_spec best best.maxPassengers 0 (firstFreePassengerSeat best) rfl h0
          refine ⟨hmemv, by simpa using hstr, by rw [← hval]; exact hlt, hmin, ?_, ?_⟩
          · intro _
            exact ⟨hge, hfree, fun j hj => hocc j (Nat.zero_le j) hj⟩
          · intro hbp; cases hbp
  · norm_num [getClosestVehicle, getPosition, scanVehicles, distSq,
      firstFreePassengerSeat, seatScan, getPassenger,
      c5TwoNear, c5veh30, c5veh55, baseVeh, baseState, basePlayer, padIdle, simBase]
  · norm_num [getClosestVehicle, getPosition, scanVehicles, distSq,
      firstFreePassengerSeat, seatScan, getPassenger,
      c5TwoFar, baseVeh, baseState, basePlayer, padIdle, simBase]
  · norm_num [getClosestVehicle, getPosition, scanVehicles, distSq,
      firstFreePassengerSeat, seatScan, getPassenger,
      c5FullSeats, c5vehFull, baseVeh, baseState, basePlayer, padIdle, simBase]
    decide

/-- Witness for C5 at the two-vehicle world. -/
theorem C5_witness :
    c5veh30 ∈ c5TwoNear.vehicles ∧ distSq (getPosition c5TwoNear) c5veh30.pos < 36 :=
  have h := C5_closest_vehicle_search.1 c5TwoNear false c5veh30 0
    C5_closest_vehicle_search.2.1
  ⟨h.1, h.2.2.1⟩

/-! ## Enter/exit mutual-exclusion invariant lemmas -/

/-- The invariant forces mutual exclusion of the two flags. -/
theorem veeInv_mutex (p : Player) (h : veeInv p) :
    ¬ (p.vee.entering = true ∧ p.vee.exiting = true) := by
  rintro ⟨he, hx⟩
  exact (h.2 hx) (h.1 he)

/-- The invariant transfers along equal flag fields. -/
theorem veeInv_transfer (s2 s : GState) (hv : s2.p.vee = s.p.vee)
    (hp : s2.p.pVehicle = s.p.pVehicle) (h : veeInv s.p) : veeInv s2.p := by
  unfold veeInv at h ⊢
  rw [hv, hp]
  exact h

/-- SetHealth does not touch the enter/exit record or the vehicle
reference. -/
theorem setHealth_vee (h : Nat) (s : GState) :
    (setHealth h s).p.vee = s.p.vee ∧ (setHealth h s).p.pVehicle = s.p.pVehicle := by
  unfold setHealth
  split_ifs <;> exact ⟨rfl, rfl⟩

/-- SetArmour does not touch the enter/exit record or the vehicle
reference. -/
theorem setArmour_vee (a : Int) (s : GState) :
    (setArmour a s).p.vee = s.p.vee ∧ (setArmour a s).p.pVehicle = s.p.pVehicle := by
  unfold setArmour
  split_ifs <;> exact ⟨rfl, rfl⟩

/-- SetPosition does not touch the enter/exit record or the vehicle
reference. -/
theorem setPosition_vee (v : Vec3) (b : Bool) (s : GState) :
    (setPosition v b s).p.vee = s.p.vee ∧ (setPosition v b s).p.pVehicle = s.p.pVehicle := by
  unfold setPosition removeTargetPosition
  split_ifs <;> exact ⟨rfl, rfl⟩

/-- An interpolation tick does not touch the enter/exit record or the
vehicle reference. -/
theorem updateTargetPosition_vee (s : GState) :
    (updateTargetPosition s).p.vee = s.p.vee ∧
    (updateTargetPosition s).p.pVehicle = s.p.pVehicle := by
  unfold updateTargetPosition
  split
  · dsimp only
    by_cases hone : clamp 0 (unlerp s.p.interpStartTime s.time s.p.interpFinishTime) 1 = 1 <;>
      by_cases hsnap : 25 < distSq (getPosition s) s.p.interpTarget <;>
        simp only [hone, hsnap, if_true, if_false, ite_true, ite_false] <;>
          exact ⟨(setPosition_vee _ _ _).1, (setPosition_vee _ _ _).2⟩
  · exact ⟨rfl, rfl⟩

/-- ResetVehicleEnterExit clears the record and keeps the vehicle
reference. -/
theorem resetVehicleEnterExit_vee (s : GState) :
    (resetVehicleEnterExit s).p.vee = ⟨false, false, false, none, 0⟩ ∧
    (resetVehicleEnterExit s).p.pVehicle = s.p.pVehicle := by
  unfold resetVehicleEnterExit clearVehicleEntryTask clearVehicleExitTask
  dsimp only
  split_ifs <;> exact ⟨rfl, rfl⟩

/-- The invariant holds after any reset of the enter/exit record. -/
theorem veeInv_reset (s : GState) : veeInv (resetVehicleEnterExit s).p := by
  obtain ⟨hv, _⟩ := resetVehicleEnterExit_vee s
  refine ⟨fun hent => ?_, fun hxx => ?_⟩
  · rw [hv] at hent; cases hent
  · rw [hv] at hxx; cases hxx

/-- EnterVehicle preserves the invariant: the entering flag is only raised
while the vehicle reference is empty. -/
theorem veeInv_enterVehicle (va : Option Nat) (seat : Nat) (s : GState)
    (h : veeInv s.p) : veeInv (enterVehicle va seat s).p := by
  cases va with
  | none =>
    unfold enterVehicle
    split_ifs <;> exact h
  | some vid =>
    unfold enterVehicle
    by_cases hsp : s.p.spawned = true
    case neg => rw [if_neg (by simpa using hsp)]; exact h
    rw [if_pos (by simpa using hsp)]
    dsimp only
    by_cases hforce : (!(vehD vid s).streamedIn && s.p.isLocalPlayer) = true <;>
      [rw [if_pos hforce]; rw [if_neg hforce]] <;>
      {
        first
        | (by_cases hin : isInVehicle (forceStreamIn vid s).p = true
           case pos => rw [if_pos hin]; exact h
           case neg =>
             rw [if_neg hin]
             by_cases hc : ((vehD vid (forceStreamIn vid s)).streamedIn &&
                 (vehD vid (forceStreamIn vid s)).doorLockState == 0) = true
             case neg => rw [if_neg hc]; exact h
             case pos =>
               rw [if_pos hc]
               have hnone : s.p.pVehicle = none := by
                 unfold isInVehicle at hin
                 exact Option.not_isSome_iff_eq_none.mp (by simpa using hin)
               exact ⟨fun _ => hnone, fun hxx => h.2 hxx⟩)
        | (by_cases hin : isInVehicle s.p = true
           case pos => rw [if_pos hin]; exact h
           case neg =>
             rw [if_neg hin]
             by_cases hc : ((vehD vid s).streamedIn && (vehD vid s).doorLockState == 0) = true
             case neg => rw [if_neg hc]; exact h
             case pos =>
               rw [if_pos hc]
               have hnone : s.p.pVehicle = none := by
                 unfold isInVehicle at hin
                 exact Option.not_isSome_iff_eq_none.mp (by simpa using hin)
               exact ⟨fun _ => hnone, fun hxx => h.2 hxx⟩)
      }

/-- ExitVehicle preserves the invariant when it returns: the exiting flag
is only raised while a vehicle reference is held, which by the invariant
also means no entry is in flight. -/
theorem veeInv_exitVehicle (m : Bool) (s s2 : GState) (ms : List Msg)
    (h : veeInv s.p) (hret : exitVehicle m s = some (s2, ms)) : veeInv s2.p := by
  unfold exitVehicle at hret
  by_cases hsp : s.p.spawned = true
  case neg =>
    rw [if_neg (by simpa using hsp)] at hret
    obtain ⟨rfl, rfl⟩ := Prod.mk.injEq _ _ _ _ |>.mp (Option.some.inj hret)
    exact h
  rw [if_pos (by simpa using hsp)] at hret
  cases hv : s.p.pVehicle with
  | none => rw [hv] at hret; cases hret
  | some vid =>
    rw [hv] at hret
    dsimp only at hret
    have hsome : ¬ (s.p.pVehicle = none) := by simp [hv]
    split_ifs at hret <;>
      (obtain ⟨rfl, rfl⟩ := Prod.mk.injEq _ _ _ _ |>.mp (Option.some.inj hret);
       exact ⟨fun hent => absurd (h.1 hent) hsome, fun _ => hsome⟩)

/-- Clearing the entry task does not touch the enter/exit record or the
vehicle reference. -/
theorem clearVehicleEntryTask_vee (s : GState) :
    (clearVehicleEntryTask s).p.vee = s.p.vee ∧
    (clearVehicleEntryTask s).p.pVehicle = s.p.pVehicle := by
  unfold clearVehicleEntryTask
  split_ifs <;> exact ⟨rfl, rfl⟩

/-- Clearing the exit task does not touch the enter/exit record or the
vehicle reference. -/
theorem clearVehicleExitTask_vee (s : GState) :
    (clearVehicleExitTask s).p.vee = s.p.vee ∧
    (clearVehicleExitTask s).p.pVehicle = s.p.pVehicle := by
  unfold clearVehicleExitTask
  split_ifs <;> exact ⟨rfl, rfl⟩

/-- A state whose enter/exit record is fully cleared satisfies the
invariant. -/
theorem veeInv_of_cleared (s2 : GState)
    (hv : s2.p.vee = ⟨false, false, false, none, 0⟩) : veeInv s2.p := by
  refine ⟨fun hent => ?_, fun hxx => ?_⟩
  · rw [hv] at hent; cases hent
  · rw [hv] at hxx; cases hxx

/-- The seated entry-completion stage preserves the invariant. -/
theorem veeInv_pveInVehicleStage (s s2 : GState) (ms : List Msg) (h : veeInv s.p)
    (hret : pveInVehicleStage s = some (s2, ms)) : veeInv s2.p := by
  unfold pveInVehicleStage at hret
  split_ifs at hret
  · cases hv : s.p.vee.pendVehicle with
    | none => rw [hv] at hret; cases hret
    | some vid =>
      rw [hv] at hret
      dsimp only at hret
      split_ifs at hret <;>
        (obtain ⟨rfl, rfl⟩ := Prod.mk.injEq _ _ _ _ |>.mp (Option.some.inj hret);
         exact ⟨fun hent => (Bool.false_ne_true hent).elim, fun _ => Option.some_ne_none vid⟩)
  · obtain ⟨rfl, rfl⟩ := Prod.mk.injEq _ _ _ _ |>.mp (Option.some.inj hret)
    exact h
  · obtain ⟨rfl, rfl⟩ := Prod.mk.injEq _ _ _ _ |>.mp (Option.some.inj hret)
    exact h

/-- The unseated entry-handling stage preserves the invariant. -/
theorem veeInv_pveEnteringStage (s s2 : GState) (ms : List Msg) (h : veeInv s.p)
    (hret : pveEnteringStage s = some (s2, ms)) : veeInv s2.p := by
  unfold pveEnteringStage at hret
  split_ifs at hret
  · cases hv : s.p.vee.pendVehicle with
    | none => rw [hv] at hret; cases hret
    | some vid =>
      rw [hv] at hret
      dsimp only at hret
      split_ifs at hret <;>
        (obtain ⟨rfl, rfl⟩ := Prod.mk.injEq _ _ _ _ |>.mp (Option.some.inj hret);
         exact ⟨fun hent => (Bool.false_ne_true hent).elim, fun hxx => h.2 hxx⟩)
  · obtain ⟨rfl, rfl⟩ := Prod.mk.injEq _ _ _ _ |>.mp (Option.some.inj hret)
    exact veeInv_enterVehicle _ _ s h
  · obtain ⟨rfl, rfl⟩ := Prod.mk.injEq _ _ _ _ |>.mp (Option.some.inj hret)
    exact h
  · obtain ⟨rfl, rfl⟩ := Prod.mk.injEq _ _ _ _ |>.mp (Option.some.inj hret)
    exact veeInv_transfer _ s (clearVehicleEntryTask_vee s).1 (clearVehicleEntryTask_vee s).2 h
  · obtain ⟨rfl, rfl⟩ := Prod.mk.injEq _ _ _ _ |>.mp (Option.some.inj hret)
    exact h

/-- The forceful-exit stage preserves the invariant when no exit is in
flight. -/
theorem veeInv_pveForcefulStage (s1 : GState) (h : veeInv s1.p)
    (hx : s1.p.vee.exiting = false) : veeInv (pveForcefulStage s1).1.p := by
  unfold pveForcefulStage
  cases hv : s1.p.pVehicle with
  | none => exact h
  | some vid =>
    dsimp only
    refine ⟨fun _ => rfl, fun hxx => ?_⟩
    have hxx2 : s1.p.vee.exiting = true := hxx
    rw [hx] at hxx2
    cases hxx2

/-- The unseated exit-handling stage preserves the invariant. -/
theorem veeInv_pveExitingStage (s s2 : GState) (ms : List Msg) (h : veeInv s.p)
    (hret : pveExitingStage s = some (s2, ms)) : veeInv s2.p := by
  unfold pveExitingStage at hret
  split_ifs at hret with h1 h2
  · cases hv : s.p.pVehicle with
    | none => rw [hv] at hret; cases hret
    | some vid =>
      rw [hv] at hret
      dsimp only at hret
      obtain ⟨rfl, rfl⟩ := Prod.mk.injEq _ _ _ _ |>.mp (Option.some.inj hret)
      exact ⟨fun _ => rfl, fun hxx => (Bool.false_ne_true hxx).elim⟩
  · obtain ⟨rfl, rfl⟩ := Prod.mk.injEq _ _ _ _ |>.mp (Option.some.inj hret)
    exact h
  all_goals {
    have hxf : s.p.vee.exiting = false := by
      cases hb : s.p.vee.exiting
      · rfl
      · exact absurd hb h1
    have hx := Option.some.inj hret
    first
    | (have hinv := veeInv_pveForcefulStage (clearVehicleExitTask s)
        (veeInv_transfer _ s (clearVehicleExitTask_vee s).1 (clearVehicleExitTask_vee s).2 h)
        (by rw [(clearVehicleExitTask_vee s).1]; exact hxf)
       rw [hx] at hinv
       exact hinv)
    | (have hinv := veeInv_pveForcefulStage s h hxf
       rw [hx] at hinv
       exact hinv)
  }

/-- ProcessVehicleEntryExit preserves the invariant when it returns. -/
theorem veeInv_processVehicleEntryExit (s s2 : GState) (ms : List Msg) (h : veeInv s.p)
    (hret : processVehicleEntryExit s = some (s2, ms)) : veeInv s2.p := by
  unfold processVehicleEntryExit at hret
  split_ifs at hret
  · exact veeInv_pveInVehicleStage s s2 ms h hret
  · cases h1 : pveEnteringStage s with
    | none => rw [h1] at hret; cases hret
    | some r1 =>
      obtain ⟨s1, ms1⟩ := r1
      rw [h1] at hret
      dsimp only at hret
      cases h2 : pveExitingStage s1 with
      | none => rw [h2] at hret; cases hret
      | some r2 =>
        obtain ⟨s2x, ms2x⟩ := r2
        rw [h2] at hret
        dsimp only at hret
        obtain ⟨rfl, rfl⟩ := Prod.mk.injEq _ _ _ _ |>.mp (Option.some.inj hret)
        exact veeInv_pveExitingStage s1 s2x ms2x
          (veeInv_pveEnteringStage s s1 ms1 h h1) h2
  · obtain ⟨rfl, rfl⟩ := Prod.mk.injEq _ _ _ _ |>.mp (Option.some.inj hret)
    exact h

/-- RemoveFromVehicle establishes the invariant outright (it ends in a
full reset of the enter/exit record). -/
theorem veeInv_removeFromVehicle (s : GState) (h : veeInv s.p) :
    veeInv (removeFromVehicle s).p := by
  unfold removeFromVehicle
  split_ifs
  · cases hv : s.p.pVehicle with
    | none => exact h
    | some vid =>
      dsimp only
      exact veeInv_of_cleared _ ((resetVehicleEnterExit_vee _).1)
  · exact h

/-- PutInVehicle establishes the invariant outright on its main path and
preserves it on its early returns. -/
theorem veeInv_putInVehicle (va : Option Nat) (seat : Nat) (s : GState) (h : veeInv s.p) :
    veeInv (putInVehicle va seat s).1.p := by
  cases va with
  | none =>
    unfold putInVehicle
    split_ifs <;> exact h
  | some vid =>
    unfold putInVehicle
    by_cases hsp : s.p.spawned = true
    case neg => rw [if_neg (by simpa using hsp)]; exact h
    rw [if_pos (by simpa using hsp)]
    dsimp only
    by_cases hout : (!(vehD vid s).streamedIn && !s.p.isLocalPlayer) = true
    · rw [if_pos hout]; exact h
    · rw [if_neg hout]
      split_ifs <;>
        (refine veeInv_of_cleared _ ?_
         exact (resetVehicleEnterExit_vee _).1)

/-- Kill preserves the invariant (its death path ends in a full reset). -/
theorem veeInv_kill (b : Bool) (s : GState) (h : veeInv s.p) :
    veeInv (kill b s).p := by
  unfold kill
  split_ifs <;>
    first
    | exact h
    | exact veeInv_of_cleared _ ((resetVehicleEnterExit_vee _).1)

/-- CheckVehicleEntryExitKey preserves the invariant when it returns. -/
theorem veeInv_checkVehicleEntryExitKey (s s2 : GState) (ms : List Msg) (h : veeInv s.p)
    (hret : checkVehicleEntryExitKey s = some (s2, ms)) : veeInv s2.p := by
  unfold checkVehicleEntryExitKey at hret
  by_cases c1 : (s.p.spawned && s.inputEnabled && !s.controlsDisabled) = true
  case neg =>
    rw [if_neg c1] at hret
    obtain ⟨rfl, rfl⟩ := Prod.mk.injEq _ _ _ _ |>.mp (Option.some.inj hret)
    exact h
  rw [if_pos c1] at hret
  by_cases c2 : (s.p.currentCS.enterExitVehicle && !s.p.previousCS.enterExitVehicle) = true
  · rw [if_pos c2] at hret
    by_cases c3 : (!s.p.vee.requesting && isInVehicle s.p && !s.p.vee.exiting) = true
    · rw [if_pos c3] at hret
      cases hv : s.p.pVehicle with
      | none =>
        rw [hv] at hret
        obtain ⟨rfl, rfl⟩ := Prod.mk.injEq _ _ _ _ |>.mp (Option.some.inj hret)
        exact h
      | some vid =>
        rw [hv] at hret
        dsimp only at hret
        by_cases c4 : (vehD vid s).isNetworkVehicle = true
        · rw [if_pos c4] at hret
          obtain ⟨rfl, rfl⟩ := Prod.mk.injEq _ _ _ _ |>.mp (Option.some.inj hret)
          exact ⟨fun hent => h.1 hent, fun hxx => h.2 hxx⟩
        · rw [if_neg c4] at hret
          exact veeInv_exitVehicle true s s2 ms h hret
    · rw [if_neg c3] at hret
      obtain ⟨rfl, rfl⟩ := Prod.mk.injEq _ _ _ _ |>.mp (Option.some.inj hret)
      exact h
  · rw [if_neg c2] at hret
    dsimp only at hret
    by_cases c5 : (s.p.previousCS.enterExitVehicle && !s.p.currentCS.enterExitVehicle ||
        s.p.previousCS.horn && !s.p.currentCS.horn) = true
    · rw [if_pos c5] at hret
      by_cases c6 : (!s.p.vee.requesting) = true
      · rw [if_pos c6] at hret
        by_cases c7 : (!isInVehicle s.p && !s.p.vee.entering) = true
        · rw [if_pos c7] at hret
          cases hf : getClosestVehicle (s.p.previousCS.horn && !s.p.currentCS.horn) s with
          | none =>
            rw [hf] at hret
            obtain ⟨rfl, rfl⟩ := Prod.mk.injEq _ _ _ _ |>.mp (Option.some.inj hret)
            exact h
          | some vp =>
            obtain ⟨v, seat⟩ := vp
            rw [hf] at hret
            dsimp only at hret
            by_cases c8 : v.spawned = true
            · rw [if_pos c8] at hret
              by_cases c9 : 0 < v.doorLockState
              · rw [if_pos c9] at hret
                obtain ⟨rfl, rfl⟩ := Prod.mk.injEq _ _ _ _ |>.mp (Option.some.inj hret)
                exact ⟨fun hent => (Bool.false_ne_true hent).elim, fun hxx => h.2 hxx⟩
              · rw [if_neg c9] at hret
                by_cases c10 : v.isNetworkVehicle = true
                · rw [if_pos c10] at hret
                  obtain ⟨rfl, rfl⟩ := Prod.mk.injEq _ _ _ _ |>.mp (Option.some.inj hret)
                  exact ⟨fun hent => h.1 hent, fun hxx => h.2 hxx⟩
                · rw [if_neg c10] at hret
                  obtain ⟨rfl, rfl⟩ := Prod.mk.injEq _ _ _ _ |>.mp (Option.some.inj hret)
                  exact veeInv_enterVehicle (some v.vehId) seat s h
            · rw [if_neg c8] at hret
              obtain ⟨rfl, rfl⟩ := Prod.mk.injEq _ _ _ _ |>.mp (Option.some.inj hret)
              exact h
        · rw [if_neg c7] at hret
          obtain ⟨rfl, rfl⟩ := Prod.mk.injEq _ _ _ _ |>.mp (Option.some.inj hret)
          exact h
      · rw [if_neg c6] at hret
        obtain ⟨rfl, rfl⟩ := Prod.mk.injEq _ _ _ _ |>.mp (Option.some.inj hret)
        exact h
    · rw [if_neg c5] at hret
      obtain ⟨rfl, rfl⟩ := Prod.mk.injEq _ _ _ _ |>.mp (Option.some.inj hret)
      exact h

/-- The vehicle-death polling stage preserves the invariant. -/
theorem veeInv_vehicleDeathCheckStage (s : GState) (h : veeInv s.p) :
    veeInv (vehicleDeathCheckStage s).1.p := by
  unfold vehicleDeathCheckStage
  by_cases hd : s.p.vehicleDeathCheck = true
  · rw [if_pos hd]
    cases hv : s.p.pVehicle with
    | none => exact ⟨fun hent => h.1 hent, fun hxx => h.2 hxx⟩
    | some vid =>
      dsimp only
      split_ifs <;> exact ⟨fun hent => h.1 hent, fun hxx => h.2 hxx⟩
  · rw [if_neg hd]; exact h

/-- Pulse preserves the invariant when it returns. -/
theorem veeInv_pulse (pad : ControlState) (s s2 : GState) (ms : List Msg) (h : veeInv s.p)
    (hret : pulse pad s = some (s2, ms)) : veeInv s2.p := by
  unfold pulse at hret
  by_cases hsp : s.p.spawned = true
  case neg =>
    rw [if_neg (by simpa using hsp)] at hret
    obtain ⟨rfl, rfl⟩ := Prod.mk.injEq _ _ _ _ |>.mp (Option.some.inj hret)
    exact h
  rw [if_pos (by simpa using hsp)] at hret
  dsimp only at hret
  set s1 : GState := if s.p.isLocalPlayer = true then
      { s with p.previousCS := s.p.currentCS, p.currentCS := pad }
    else s with hs1def
  have h1 : veeInv s1.p := by
    rw [hs1def]
    split_ifs
    · exact ⟨fun hent => h.1 hent, fun hxx => h.2 hxx⟩
    · exact h
  set s2h : GState := if s1.p.healthLocked = true then setHealth s1.p.lockedHealth s1 else s1
    with hs2def
  have h2 : veeInv s2h.p := by
    rw [hs2def]
    split_ifs
    · exact veeInv_transfer _ s1 (setHealth_vee _ s1).1 (setHealth_vee _ s1).2 h1
    · exact h1
  set s3 : GState := if s2h.p.armourLocked = true then setArmour s2h.p.lockedArmour s2h else s2h
    with hs3def
  have h3 : veeInv s3.p := by
    rw [hs3def]
    split_ifs
    · exact veeInv_transfer _ s2h (setArmour_vee _ s2h).1 (setArmour_vee _ s2h).2 h2
    · exact h2
  cases hproc : processVehicleEntryExit s3 with
  | none => rw [hproc] at hret; cases hret
  | some r4 =>
    obtain ⟨s4, ms1⟩ := r4
    rw [hproc] at hret
    dsimp only at hret
    have h4 : veeInv s4.p := veeInv_processVehicleEntryExit s3 s4 ms1 h3 hproc
    by_cases hloc : s4.p.isLocalPlayer = true
    · rw [if_pos hloc] at hret
      cases hchk : checkVehicleEntryExitKey s4 with
      | none => rw [hchk] at hret; cases hret
      | some r5 =>
        obtain ⟨s5, ms2⟩ := r5
        rw [hchk] at hret
        dsimp only at hret
        obtain ⟨rfl, rfl⟩ := Prod.mk.injEq _ _ _ _ |>.mp (Option.some.inj hret)
        exact veeInv_vehicleDeathCheckStage s5
          (veeInv_checkVehicleEntryExitKey s4 s5 ms2 h4 hchk)
    · rw [if_neg hloc] at hret
      obtain ⟨rfl, rfl⟩ := Prod.mk.injEq _ _ _ _ |>.mp (Option.some.inj hret)
      split_ifs
      · exact veeInv_transfer _ s4 (updateTargetPosition_vee s4).1
          (updateTargetPosition_vee s4).2 h4
      · exact h4

/-- Claim C1: the entering and exiting flags are never both true.  The
invariant veeInv (an entry in flight holds no current vehicle reference,
an exit in flight holds one) implies the mutual exclusion, and every
operation of the possession state machine that touches the flags preserves
the invariant: EnterVehicle raises entering only with no current vehicle,
ExitVehicle raises exiting only with one, and every reset, completion,
key-input and per-tick path (ResetVehicleEnterExit, PutInVehicle,
RemoveFromVehicle, ProcessVehicleEntryExit, CheckVehicleEntryExitKey,
Kill, Pulse) preserves it whenever it completes without crashing. -/
theorem C1_enter_exit_mutual_exclusion :
    (∀ p : Player, veeInv p → ¬ (p.vee.entering = true ∧ p.vee.exiting = true)) ∧
    (∀ (va : Option Nat) (seat : Nat) (s : GState),
       veeInv s.p → veeInv (enterVehicle va seat s).p) ∧
    (∀ (m : Bool) (s s2 : GState) (ms : List Msg),
       veeInv s.p → exitVehicle m s = some (s2, ms) → veeInv s2.p) ∧
    (∀ s : GState, veeInv (resetVehicleEnterExit s).p) ∧
    (∀ (va : Option Nat) (seat : Nat) (s : GState),
       veeInv s.p → veeInv (putInVehicle va seat s).1.p) ∧
    (∀ s : GState, veeInv s.p → veeInv (removeFromVehicle s).p) ∧
    (∀ (s s2 : GState) (ms : List Msg),
       veeInv s.p → processVehicleEntryExit s = some (s2, ms) → veeInv s2.p) ∧
    (∀ (s s2 : GState) (ms : List Msg),
       veeInv s.p → checkVehicleEntryExitKey s = some (s2, ms) → veeInv s2.p) ∧
    (∀ (b : Bool) (s : GState), veeInv s.p → veeInv (kill b s).p) ∧
    (∀ (pad : ControlState) (s s2 : GState) (ms : List Msg),
       veeInv s.p → pulse pad s = some (s2, ms) → veeInv s2.p) := by
  refine ⟨veeInv_mutex, veeInv_enterVehicle,
    fun m s s2 ms h hret => veeInv_exitVehicle m s s2 ms h hret,
    veeInv_reset, veeInv_putInVehicle,
    fun s h => veeInv_removeFromVehicle s h,
    fun s s2 ms h hret => veeInv_processVehicleEntryExit s s2 ms h hret,
    fun s s2 ms h hret => veeInv_checkVehicleEntryExitKey s s2 ms h hret,
    fun b s h => veeInv_kill b s h,
    fun pad s s2 ms h hret => veeInv_pulse pad s s2 ms h hret⟩

/-- Witness for C1: the invariant holds at the baseline world and is kept
by a concrete entry next to a streamed-in vehicle. -/
theorem C1_witness : veeInv (enterVehicle (some 1) 0 c5TwoNear).p :=
  C1_enter_exit_mutual_exclusion.2.1 (some 1) 0 c5TwoNear
    ⟨fun h => absurd h (by decide), fun h => absurd h (by decide)⟩

end IVMP
